import Mathlib

/-!
# save-my-tokens: the streaming task supervisor

A shallow embedding of `src/mcp-scripts/mcp-server-streaming.js`.

* A JavaScript string is the list of its UTF-16 code units (`Str`), so that
  `.length`, `.trim()`, `.split`, `.includes` and the regular expressions of the
  source act on the same units as they do in the source.
* The three regular expressions of the source are written with backtracking
  combinators in continuation-passing style, one combinator per regex operator.
* The supervisor (`FreeAgentsServer`) is a state record; every callback of the
  source (`data`, `close`, `error`, the two timers, the shutdown handler) is a
  transition on it, fired by an `Event`.
-/

namespace SaveMyTokens

/-! ## Strings -/

/-- A JavaScript string: its UTF-16 code units. -/
abbrev Str := List Nat

/-- UTF-16 encoding of one Unicode scalar value. -/
def utf16 (c : Char) : List Nat :=
  if c.toNat < 65536 then [c.toNat]
  else [55296 + (c.toNat - 65536) / 1024, 56320 + (c.toNat - 65536) % 1024]

/-- The JavaScript string written as the literal `s`. -/
def js (s : String) : Str := s.toList.flatMap utf16

/-- The set matched by `\s` and stripped by `String.prototype.trim`:
ECMAScript WhiteSpace and LineTerminator code units. -/
def isWhiteSpace (c : Nat) : Bool :=
  c == 9 || c == 10 || c == 11 || c == 12 || c == 13 || c == 32 || c == 160 ||
  c == 5760 || (8192 ≤ c && c ≤ 8202) || c == 8232 || c == 8233 || c == 8239 ||
  c == 8287 || c == 12288 || c == 65279

/-- ECMAScript LineTerminator code units: the characters `.` does not match. -/
def isLineTerminator (c : Nat) : Bool :=
  c == 10 || c == 13 || c == 8232 || c == 8233

/-- `s.trim()`. -/
def trim (s : Str) : Str :=
  ((s.dropWhile isWhiteSpace).reverse.dropWhile isWhiteSpace).reverse

/-- `s.split('\n')`. -/
def splitLines : Str → List Str
  | [] => [[]]
  | c :: cs =>
    if c = 10 then [] :: splitLines cs
    else
      match splitLines cs with
      | l :: ls => (c :: l) :: ls
      | [] => [[c]]

/-- `parts.join(sep)`. -/
def join (sep : Str) : List Str → Str
  | [] => []
  | [x] => x
  | x :: y :: rest => x ++ sep ++ join sep (y :: rest)

/-- `s.indexOf(lit)`: the first position at which `lit` occurs in `s`. -/
def indexOf (lit : Str) : Str → Option Nat
  | [] => if lit.isPrefixOf [] then some 0 else none
  | c :: cs =>
    if lit.isPrefixOf (c :: cs) then some 0
    else (indexOf lit cs).map (· + 1)

/-- `s.includes(lit)`. -/
def includes (s lit : Str) : Bool := (indexOf lit s).isSome

/-- Decimal rendering of an integer, as `String(n)` gives it. -/
def showInt (n : Int) : Str := js (toString n)

/-! ## Regular expressions

Backtracking matchers in continuation-passing style.  A matcher takes the
continuation `k` for the rest of the pattern and the remaining input; it tries
its alternatives in the order the ECMAScript semantics prescribes and returns the
first success. -/

/-- A literal. -/
def reLit {α : Type} (lit : Str) (k : Str → Option α) (s : Str) : Option α :=
  if lit.isPrefixOf s then k (s.drop lit.length) else none

/-- Greedy `X*` for a one-character class `p`: the longest run first, then one
character less at a time.  The continuation receives the text matched. -/
def reStar {α : Type} (p : Nat → Bool) (k : Str → Str → Option α) : Str → Option α
  | [] => k [] []
  | c :: cs =>
    if p c then
      match reStar p (fun m r => k (c :: m) r) cs with
      | some x => some x
      | none => k [] (c :: cs)
    else k [] (c :: cs)

/-- Greedy `X+` for a one-character class `p`. -/
def rePlus {α : Type} (p : Nat → Bool) (k : Str → Str → Option α) : Str → Option α
  | [] => none
  | c :: cs => if p c then reStar p (fun m r => k (c :: m) r) cs else none

/-- Lazy `X*?` for a one-character class `p`: the shortest run first, then one
character more at a time. -/
def reStarLazy {α : Type} (p : Nat → Bool) (k : Str → Str → Option α) : Str → Option α
  | [] => k [] []
  | c :: cs =>
    match k [] (c :: cs) with
    | some x => some x
    | none => if p c then reStarLazy p (fun m r => k (c :: m) r) cs else none

/-- An unanchored search (`String.prototype.match` without the `g` flag): the
pattern is tried at position 0, 1, 2, ... and the first success wins. -/
def reSearch {α : Type} (m : Str → Option α) : Str → Option α
  | [] => m []
  | c :: cs =>
    match m (c :: cs) with
    | some x => some x
    | none => reSearch m cs

/-! ## Progress stream parser -/

/-- The event `parseProgressMessage` returns.  The capture time-stamp
(`new Date().toISOString()`) is supplied by the caller as `timestamp`. -/
structure ProgressEvent where
  category : Str
  message : Str
  timestamp : Str
  deriving DecidableEq, Repr

/-- The two capture groups of
`/\[AGENT-PROGRESS\]\s+([^:]+):\s*(.+)/` on `line`, when it matches. -/
def progressRegex (line : Str) : Option (Str × Str) :=
  reSearch
    (reLit (js "[AGENT-PROGRESS]") fun r0 =>
      rePlus isWhiteSpace (fun _ r1 =>
        rePlus (fun c => c != 58) (fun category r2 =>
          reLit [58] (fun r3 =>
            reStar isWhiteSpace (fun _ r4 =>
              rePlus (fun c => !isLineTerminator c) (fun message _ =>
                some (category, message)) r4) r3) r2) r1) r0)
    line

/-- `parseProgressMessage(line)`; `none` is `null`. -/
def parseProgressMessage (now : Str) (line : Str) : Option ProgressEvent :=
  match progressRegex line with
  | none => none
  | some (category, message) =>
    some { category := trim category, message := trim message, timestamp := now }

/-- The own properties of the `icons` table of `formatProgress`. -/
def icons (category : Str) : Option Str :=
  if category = js "task-start" then some (js "🎯")
  else if category = js "allocation" then some (js "🧠")
  else if category = js "model-start" then some (js "🚀")
  else if category = js "model-call" then some (js "📡")
  else if category = js "model-wait" then some (js "⏳")
  else if category = js "model-receive" then some (js "📥")
  else if category = js "model-complete" then some (js "✅")
  else if category = js "model-fail" then some (js "❌")
  else if category = js "cache-hit" then some (js "⚡")
  else if category = js "cache-miss" then some (js "🔄")
  else if category = js "results" then some (js "📊")
  else if category = js "task-complete" then some (js "🎉")
  else if category = js "task-error" then some (js "💥")
  else none

/-- What `icons[key]` finds on the prototype chain when `key` is not an own
property: `icons` is an object literal, so the members of `Object.prototype`
are visible through it.  The value is given as the text a template literal
renders for it (a native function, or `Object.prototype` itself for
`__proto__`); all of these values are truthy. -/
def inheritedMember (key : Str) : Option Str :=
  if key = js "constructor" then some (js "function Object() \x7b [native code] \x7d")
  else if key = js "__proto__" then some (js "[object Object]")
  else if key = js "__defineGetter__" ∨ key = js "__defineSetter__" ∨
      key = js "__lookupGetter__" ∨ key = js "__lookupSetter__" ∨
      key = js "hasOwnProperty" ∨ key = js "isPrototypeOf" ∨
      key = js "propertyIsEnumerable" ∨ key = js "toString" ∨
      key = js "valueOf" ∨ key = js "toLocaleString" then
    some (js "function " ++ key ++ js "() \x7b [native code] \x7d")
  else none

/-- `formatProgress(progress)`. -/
def formatProgress (progress : ProgressEvent) : Str :=
  let icon :=
    match icons progress.category with
    | some i => i
    | none =>
      match inheritedMember progress.category with
      | some v => v
      | none => js "🤖"
  icon ++ js " " ++ progress.message

/-! ## Result extraction -/

/-- The text matched by `/<agent-result>[\s\S]*?<\/agent-result>/` in `stdout`
(`xmlMatch[0]`), when the pattern matches. -/
def agentResultRegex (stdout : Str) : Option Str :=
  reSearch
    (reLit (js "<agent-result>") fun r0 =>
      reStarLazy (fun _ => true) (fun body r1 =>
        reLit (js "</agent-result>") (fun _ =>
          some (js "<agent-result>" ++ body ++ js "</agent-result>")) r1) r0)
    stdout

/-- Capture group 1 of `/<output>([\s\S]*?)<\/output>/` on `block`
(`outputMatch[1]`), when the pattern matches. -/
def outputRegex (block : Str) : Option Str :=
  reSearch
    (reLit (js "<output>") fun r0 =>
      reStarLazy (fun _ => true) (fun inner r1 =>
        reLit (js "</output>") (fun _ => some inner) r1) r0)
    block

/-- The `result` the `close` handler computes from `stdout` on exit code 0,
before the progress log is prepended. -/
def extractResult (stdout : Str) : Str :=
  match agentResultRegex stdout with
  | some block =>
    match outputRegex block with
    | some inner => trim inner
    | none => stdout
  | none =>
    if trim stdout ≠ [] then trim stdout
    else js "Task completed successfully"

/-- The progress section both branches of the `close` handler prepend when
`progressMessages.length > 0`. -/
def withProgressLog (progressMessages : List Str) (body : Str) : Str :=
  if progressMessages.length > 0 then
    js "Agent Execution Progress:\n" ++ join (js "\n") progressMessages ++
      js "\n\n---\n\n" ++ body
  else body

/-! ## Values, options, configuration -/

/-- The JavaScript values a request can carry in `args.prompt` and a task
definition in its scalar properties.  Numbers are integer-valued. -/
inductive Value where
  | undefined
  | null
  | boolean (b : Bool)
  | number (n : Int)
  | string (s : Str)
  deriving DecidableEq, Repr

/-- Truthiness: `!v` is `!(truthy v)`. -/
def Value.truthy : Value → Bool
  | .undefined => false
  | .null => false
  | .boolean b => b
  | .number n => n != 0
  | .string s => !s.isEmpty

/-- The test `typeof v === 'string'`. -/
def Value.isString : Value → Bool
  | .string _ => true
  | _ => false

/-- The text of a string value (empty for any other value). -/
def Value.text : Value → Str
  | .string s => s
  | _ => []

/-- The `options` argument of `executeTaskWithStreaming`, typed as the tool's
input schema types it: `context`, `mode` and `project_dir` are strings,
`run_multiple` is a boolean, `timeout` a number of milliseconds; `none` is
`undefined`. -/
structure Options where
  context : Option Str
  mode : Option Str
  project_dir : Option Str
  run_multiple : Option Bool
  timeout : Option Nat
  deriving DecidableEq, Repr

/-- What the server is constructed with.  `secondsText ms` is the text of
`timeoutMs / 1000` in a template literal (number formatting of a quotient is
taken as given). -/
structure Config where
  routerPath : Str
  freeAgentsPath : Str
  logFile : Str
  defaultTimeoutMs : Nat
  secondsText : Nat → Str

/-! ## Logger -/

/-- Log levels of `Logger`. -/
inductive Level where
  | info | warn | error | debug
  deriving DecidableEq, Repr

/-- A metadata value of a log entry. -/
inductive Meta where
  | text (s : Str)
  | num (n : Int)
  | null
  deriving DecidableEq, Repr

/-- One line appended to the log file by `Logger.log`.  The time-stamp of the
entry and the echo of `warn`/`error` entries on the server's own stderr are
left out. -/
structure LogEntry where
  level : Level
  message : Str
  metadata : List (String × Meta)
  deriving DecidableEq, Repr

/-! ## Worker processes -/

/-- The two signals the supervisor sends. -/
inductive Signal where
  | SIGTERM | SIGKILL
  deriving DecidableEq, Repr

/-- A `ChildProcess` handle returned by `spawn(routerPath, args, ...)`.
`running` says that the operating-system process exists; `killed` is Node's
`subprocess.killed`; `signals` are the signals delivered to the process. -/
structure ChildProcess where
  args : List Str
  running : Bool
  killed : Bool
  signals : List Signal
  deriving DecidableEq, Repr

/-- Node's `subprocess.kill(signal)`: when the process exists the signal is
delivered and `killed` becomes `true` ("set to true after `subprocess.kill()`
is used to successfully send a signal to the child process"; it "does not
indicate that the child process has been terminated"); when the process is
gone nothing happens and `killed` keeps its value. -/
def ChildProcess.kill (child : ChildProcess) (signal : Signal) : ChildProcess :=
  if child.running then
    { child with killed := true, signals := child.signals ++ [signal] }
  else child

/-- One invocation of the promise's `resolve` or `reject`. -/
inductive Settlement where
  | resolve (result : Str)
  | reject (message : Str)
  deriving DecidableEq, Repr

/-- The closure of one `executeTaskWithStreaming` call that spawned a worker:
its arguments, its local variables, its two timers (`true` while armed),
whether its `close` and `error` handlers have run, and the invocations it made
of `resolve` and `reject`, oldest first.  (`lastProgressTime` is written but
never read and is left out.) -/
structure Task where
  taskId : Str
  task : Str
  timeoutMs : Nat
  child : ChildProcess
  stdout : Str
  stderr : Str
  progressMessages : List Str
  timeoutTimer : Bool
  killTimer : Bool
  closed : Bool
  errored : Bool
  settlements : List Settlement
  deriving DecidableEq, Repr

/-- The state of the promise: settled by the first invocation, later ones are
ignored. -/
def Task.outcome (t : Task) : Option Settlement := t.settlements.head?

/-! ## The server -/

/-- `FreeAgentsServer`.  `runningTasks` is the `Map` from task id to child
handle, in insertion order; a child handle is the index of its closure in
`tasks`.  `pendingShutdowns` counts the shutdown handlers waiting in their
2000 ms pause; `exitStatus` is set by `process.exit`. -/
structure Server where
  runningTasks : List (Str × Nat)
  tasks : List Task
  log : List LogEntry
  notifications : List Str
  console : List Str
  pendingShutdowns : Nat
  exitStatus : Option Nat
  deriving DecidableEq, Repr

/-- `map.set(key, value)`. -/
def mapSet (m : List (Str × Nat)) (key : Str) (value : Nat) : List (Str × Nat) :=
  if m.any (fun e => e.1 = key) then
    m.map (fun e => if e.1 = key then (key, value) else e)
  else m ++ [(key, value)]

/-- `map.delete(key)`. -/
def mapDelete (m : List (Str × Nat)) (key : Str) : List (Str × Nat) :=
  m.filter (fun e => e.1 ≠ key)

/-- The server as its constructor leaves it. -/
def Server.start : Server :=
  { runningTasks := []
    tasks := []
    log := [⟨.info, js "MCP Server starting (streaming version)",
      [("version", .text (js "1.1.0"))]⟩]
    notifications := []
    console := []
    pendingShutdowns := 0
    exitStatus := none }

/-- What the executor of the promise has done when it returns: rejected
already, or spawned worker `i` and left the promise pending. -/
inductive Started where
  | rejected (message : Str)
  | pending (i : Nat)
  deriving DecidableEq, Repr

/-- The argument vector built under `// Build args`. -/
def buildArgs (task prompt : Str) (options : Options) : List Str :=
  let args := [js "--task", task, js "--prompt", prompt]
  let args :=
    match options.context with
    | some c => if c ≠ [] then args ++ [js "--context", c] else args
    | none => args
  let args :=
    match options.mode with
    | some m => if m ≠ [] then args ++ [js "--mode", m] else args
    | none => args
  let args :=
    match options.project_dir with
    | some d => if d ≠ [] then args ++ [js "--project-dir", d] else args
    | none => args
  match options.run_multiple with
  | some r => args ++ [js "--run-multiple", if r then js "true" else js "false"]
  | none => args

/-- The synchronous part of `executeTaskWithStreaming`: the executor of the
promise, up to the registration of the handlers.  `routerExists` is the answer
of `existsSync(this.routerPath)`.  `spawn` returns a handle; a failure to
launch arrives later as an `error` event. -/
def executeTaskWithStreaming (cfg : Config) (routerExists : Bool) (sv : Server)
    (taskId task : Str) (prompt : Value) (options : Options) : Server × Started :=
  let timeoutMs :=
    match options.timeout with
    | some t => if t ≠ 0 then t else cfg.defaultTimeoutMs
    | none => cfg.defaultTimeoutMs
  if !prompt.truthy || !prompt.isString then
    (sv, .rejected (js "Invalid prompt"))
  else if prompt.text.length > 50000 then
    (sv, .rejected (js "Prompt too long (max 50000 characters)"))
  else if !routerExists then
    ({ sv with log := sv.log ++
        [⟨.error, js "Router not found", [("path", .text cfg.routerPath)]⟩] },
      .rejected (js "Router not available at: " ++ cfg.routerPath ++
        js "\n\nRun health check for details."))
  else
    let args := buildArgs task prompt.text options
    let child : ChildProcess :=
      { args := args, running := true, killed := false, signals := [] }
    let i := sv.tasks.length
    let t : Task :=
      { taskId := taskId, task := task, timeoutMs := timeoutMs, child := child
        stdout := [], stderr := [], progressMessages := []
        timeoutTimer := true, killTimer := false, closed := false
        errored := false, settlements := [] }
    ({ sv with
        log := sv.log ++ [⟨.info, js "Spawning router with streaming",
          [("taskId", .text taskId), ("task", .text task)]⟩]
        tasks := sv.tasks ++ [t]
        runningTasks := mapSet sv.runningTasks taskId i },
      .pending i)

/-! ## The callbacks -/

/-- What the `stderr` handler does for one line of a chunk. -/
structure LineEffect where
  log : List LogEntry
  progress : List Str
  notifications : List Str
  console : List Str
  deriving DecidableEq, Repr

/-- The body of the `for (const line of lines)` loop of the `stderr` handler.
`sendThrows` says whether `this.server.sendLoggingMessage` throws. -/
def stderrLine (taskId now : Str) (sendThrows : Bool) (line : Str) : LineEffect :=
  if includes line (js "[AGENT-PROGRESS]") then
    match parseProgressMessage now line with
    | some progress =>
      let formatted := formatProgress progress
      { log := [⟨.info, js "Agent progress",
          [("taskId", .text taskId), ("category", .text progress.category),
            ("message", .text progress.message)]⟩]
        progress := [formatted]
        notifications := if sendThrows then [] else [formatted]
        console := if sendThrows then [formatted] else [] }
    | none => ⟨[], [], [], []⟩
  else if trim line ≠ [] then
    { log := [⟨.debug, js "Router stderr",
        [("taskId", .text taskId), ("line", .text (trim line))]⟩]
      progress := [], notifications := [], console := [] }
  else ⟨[], [], [], []⟩

/-- Replace closure `i`. -/
def Server.setTask (sv : Server) (i : Nat) (t : Task) : Server :=
  { sv with tasks := sv.tasks.set i t }

/-- Append to the log file. -/
def Server.logged (sv : Server) (entries : List LogEntry) : Server :=
  { sv with log := sv.log ++ entries }

/-- The handler `child.stdout.on('data', ...)` of closure `i`, whose state is `t`. -/
def onStdoutData (sv : Server) (i : Nat) (t : Task) (data : Str) : Server :=
  sv.setTask i { t with stdout := t.stdout ++ data }

/-- The handler `child.stderr.on('data', ...)`. -/
def onStderrData (sv : Server) (i : Nat) (t : Task) (data now : Str)
    (sendThrows : Bool) : Server :=
  let effects := (splitLines data).map (stderrLine t.taskId now sendThrows)
  { sv with
    tasks := sv.tasks.set i
      { t with
        stderr := t.stderr ++ data
        progressMessages := t.progressMessages ++ effects.flatMap (·.progress) }
    log := sv.log ++ effects.flatMap (·.log)
    notifications := sv.notifications ++ effects.flatMap (·.notifications)
    console := sv.console ++ effects.flatMap (·.console) }

/-- The callback of `timeoutTimer`. -/
def onTimeout (cfg : Config) (sv : Server) (i : Nat) (t : Task) : Server :=
  let t1 :=
    if !t.child.killed then
      { t with child := t.child.kill .SIGTERM, killTimer := true }
    else t
  let t2 :=
    { t1 with
      timeoutTimer := false
      settlements := t1.settlements ++
        [.reject (js "Task timeout after " ++ cfg.secondsText t.timeoutMs ++
          js "s.\n\nCheck logs: " ++ cfg.logFile)] }
  (sv.logged [⟨.error, js "Task timeout",
    [("taskId", .text t.taskId), ("task", .text t.task),
      ("timeout_ms", .num t.timeoutMs)]⟩]).setTask i t2

/-- The callback of the inner `setTimeout(..., 5000)`. -/
def onKillTimeout (sv : Server) (i : Nat) (t : Task) : Server :=
  if !t.child.killed then
    (sv.logged [⟨.warn, js "Force killing task", [("taskId", .text t.taskId)]⟩]).setTask i
      { t with child := t.child.kill .SIGKILL, killTimer := false }
  else sv.setTask i { t with killTimer := false }

/-- The text of an exit code in a template literal; `none` is `null` (the
worker was ended by a signal). -/
def showCode : Option Int → Str
  | some n => showInt n
  | none => js "null"

/-- A log metadata value for an exit code. -/
def metaCode : Option Int → Meta
  | some n => .num n
  | none => .null

/-- The `error` text of the failure branch: `stderr || stdout || 'Unknown error'`. -/
def errorBody (stdout stderr : Str) : Str :=
  if stderr ≠ [] then stderr
  else if stdout ≠ [] then stdout
  else js "Unknown error"

/-- What the `close` handler passes to `resolve` or `reject`, from the exit
code and the closure's `stdout`, `stderr` and `progressMessages`. -/
def closeSettlement (cfg : Config) (stdout stderr : Str) (progressMessages : List Str)
    (code : Option Int) : Settlement :=
  if code = some 0 then
    .resolve (withProgressLog progressMessages (extractResult stdout))
  else
    .reject (withProgressLog progressMessages
        (js "Router failed (exit " ++ showCode code ++ js "): " ++
          errorBody stdout stderr) ++
      js "\n\nCheck logs: " ++ cfg.logFile)

/-- The handler `child.on('close', ...)`. -/
def onClose (cfg : Config) (sv : Server) (i : Nat) (t : Task) (code : Option Int) : Server :=
  let entries :=
    [(⟨.info, js "Task completed",
      [("taskId", .text t.taskId), ("task", .text t.task), ("exitCode", metaCode code),
        ("stdout_length", .num t.stdout.length),
        ("stderr_length", .num t.stderr.length)]⟩ : LogEntry)] ++
    (if code = some 0 then []
     else [⟨.error, js "Task failed",
      [("taskId", .text t.taskId), ("code", metaCode code),
        ("error", .text (errorBody t.stdout t.stderr))]⟩])
  { sv with
    runningTasks := mapDelete sv.runningTasks t.taskId
    log := sv.log ++ entries
    tasks := sv.tasks.set i
      { t with
        timeoutTimer := false
        closed := true
        settlements := t.settlements ++
          [closeSettlement cfg t.stdout t.stderr t.progressMessages code] } }

/-- The handler `child.on('error', ...)`. -/
def onError (cfg : Config) (sv : Server) (i : Nat) (t : Task) (message : Str) : Server :=
  { sv with
    runningTasks := mapDelete sv.runningTasks t.taskId
    log := sv.log ++ [⟨.error, js "Spawn failed",
      [("taskId", .text t.taskId), ("error", .text message)]⟩]
    tasks := sv.tasks.set i
      { t with
        timeoutTimer := false
        errored := true
        settlements := t.settlements ++
          [.reject (js "Failed to spawn router: " ++ message ++
            js "\n\nCheck logs: " ++ cfg.logFile)] } }

/-- The body of the first loop of `shutdown` for one registry entry. -/
def shutdownTerm (sv : Server) (entry : Str × Nat) : Server :=
  let sv := sv.logged [⟨.info, js "Killing task", [("taskId", .text entry.1)]⟩]
  match sv.tasks[entry.2]? with
  | some t => sv.setTask entry.2 { t with child := t.child.kill .SIGTERM }
  | none => sv

/-- The body of the second loop of `shutdown` for one registry entry. -/
def shutdownKill (sv : Server) (entry : Str × Nat) : Server :=
  match sv.tasks[entry.2]? with
  | some t =>
    if !t.child.killed then
      (sv.logged [⟨.warn, js "Force killing task", [("taskId", .text entry.1)]⟩]).setTask
        entry.2 { t with child := t.child.kill .SIGKILL }
    else sv
  | none => sv

/-- The end of `shutdown`: the last log entry and `process.exit(0)`. -/
def shutdownExit (sv : Server) : Server :=
  { sv.logged [⟨.info, js "Shutdown complete", []⟩] with exitStatus := some 0 }

/-- The `shutdown` function up to its `await`: with running tasks it sends
`SIGTERM` to each and then pauses for 2000 ms; with none it exits at once. -/
def onShutdown (sv : Server) (signal : Str) : Server :=
  let sv := sv.logged [⟨.info, js "Shutdown requested", [("signal", .text signal)]⟩]
  if sv.runningTasks.length > 0 then
    let sv :=
      { sv with console := sv.console ++
          [js "[SHUTDOWN] Canceling " ++ showInt sv.runningTasks.length ++
            js " running tasks..."] }
    let sv := sv.runningTasks.foldl shutdownTerm sv
    { sv with pendingShutdowns := sv.pendingShutdowns + 1 }
  else shutdownExit sv

/-- The `shutdown` function after its 2000 ms pause. -/
def onShutdownResume (sv : Server) : Server :=
  let sv := sv.runningTasks.foldl shutdownKill sv
  shutdownExit { sv with pendingShutdowns := sv.pendingShutdowns - 1 }

/-! ## Events and runs -/

/-- What can happen to the server: a call of `executeTaskWithStreaming`, and
the events its callbacks are registered for.  `i` names the closure (the
worker) an event belongs to.  `exit` is the end of the worker's
operating-system process, for which the source registers no handler. -/
inductive Event where
  | call (taskId task : Str) (prompt : Value) (options : Options) (routerExists : Bool)
  | stdoutData (i : Nat) (data : Str)
  | stderrData (i : Nat) (data now : Str) (sendThrows : Bool)
  | timeout (i : Nat)
  | killTimeout (i : Nat)
  | exit (i : Nat)
  | close (i : Nat) (code : Option Int)
  | error (i : Nat) (message : Str)
  | shutdown (signal : Str)
  | shutdownResume
  deriving DecidableEq, Repr

/-- The event on closure `i` whose state is `t`; `none` when the platform cannot
deliver the event in this state: stream data comes before `close`,
`close` comes once and after the process has ended, a timer fires only while it is
armed. -/
def taskStep (cfg : Config) (sv : Server) (i : Nat) (t : Task) : Event → Option Server
  | .stdoutData _ data => if t.closed then none else some (onStdoutData sv i t data)
  | .stderrData _ data now sendThrows =>
    if t.closed then none else some (onStderrData sv i t data now sendThrows)
  | .timeout _ => if t.timeoutTimer then some (onTimeout cfg sv i t) else none
  | .killTimeout _ => if t.killTimer then some (onKillTimeout sv i t) else none
  | .exit _ =>
    if t.child.running then
      some (sv.setTask i { t with child := { t.child with running := false } })
    else none
  | .close _ code =>
    if !t.closed && !t.child.running then some (onClose cfg sv i t code) else none
  | .error _ message => some (onError cfg sv i t message)
  | _ => none

/-- The closure an event belongs to. -/
def Event.target : Event → Option Nat
  | .stdoutData i _ => some i
  | .stderrData i _ _ _ => some i
  | .timeout i => some i
  | .killTimeout i => some i
  | .exit i => some i
  | .close i _ => some i
  | .error i _ => some i
  | _ => none

/-- One event.  Nothing happens after `process.exit`. -/
def step (cfg : Config) (sv : Server) (ev : Event) : Option Server :=
  if sv.exitStatus.isSome then none
  else
    match ev with
    | .call taskId task prompt options routerExists =>
      some (executeTaskWithStreaming cfg routerExists sv taskId task prompt options).1
    | .shutdown signal => some (onShutdown sv signal)
    | .shutdownResume => if sv.pendingShutdowns > 0 then some (onShutdownResume sv) else none
    | ev =>
      match ev.target with
      | some i =>
        match sv.tasks[i]? with
        | some t => taskStep cfg sv i t ev
        | none => none
      | none => none

/-- A sequence of events, oldest first. -/
def run (cfg : Config) (sv : Server) : List Event → Option Server
  | [] => some sv
  | ev :: evs =>
    match step cfg sv ev with
    | some sv1 => run cfg sv1 evs
    | none => none

/-- A state the server can be in. -/
def Reachable (cfg : Config) (sv : Server) : Prop :=
  ∃ evs, run cfg Server.start evs = some sv

/-! ## Worker runs

The life of one worker from the call that spawns it to its `close` event. -/

/-- A chunk of output of a worker: on its standard output, or on its
diagnostic stream (with the clock reading and the fate of the notification). -/
inductive Chunk where
  | out (data : Str)
  | err (data now : Str) (sendThrows : Bool)
  deriving DecidableEq, Repr

/-- The `data` event that delivers a chunk of worker `i`. -/
def Chunk.event (i : Nat) : Chunk → Event
  | .out data => .stdoutData i data
  | .err data now sendThrows => .stderrData i data now sendThrows

/-- Everything the worker wrote on its standard output. -/
def stdoutOf : List Chunk → Str
  | [] => []
  | .out data :: cs => data ++ stdoutOf cs
  | .err _ _ _ :: cs => stdoutOf cs

/-- Everything the worker wrote on its diagnostic stream. -/
def stderrOf : List Chunk → Str
  | [] => []
  | .out _ :: cs => stderrOf cs
  | .err data _ _ :: cs => data ++ stderrOf cs

/-- The formatted progress messages the chunks give rise to, chunk by chunk. -/
def progressOf (taskId : Str) : List Chunk → List Str
  | [] => []
  | .out _ :: cs => progressOf taskId cs
  | .err data now sendThrows :: cs =>
    ((splitLines data).map (stderrLine taskId now sendThrows)).flatMap (·.progress) ++
      progressOf taskId cs

/-- The events of one worker: the call, the chunks it writes, the end of its
process and its `close` with exit code `code`. -/
def workerRun (sv : Server) (taskId task prompt : Str) (options : Options)
    (chunks : List Chunk) (code : Option Int) : List Event :=
  [.call taskId task (.string prompt) options true] ++
    chunks.map (Chunk.event sv.tasks.length) ++
    [.exit sv.tasks.length, .close sv.tasks.length code]

/-- What the promise of a call was given: the invocations of `resolve` and
`reject` of closure `i` after the events `evs`, oldest first. -/
def settlementsAfter (cfg : Config) (sv : Server) (evs : List Event) (i : Nat) :
    Option (List Settlement) :=
  match run cfg sv evs with
  | some sv1 => (sv1.tasks[i]?).map (·.settlements)
  | none => none

/-- A configuration to evaluate runs with; its timeouts are whole seconds, for
which `timeoutMs / 1000` prints as the integer quotient. -/
def exampleConfig : Config :=
  { routerPath := js "/opt/save-my-tokens/router.sh"
    freeAgentsPath := js "/opt/save-my-tokens"
    logFile := js "/opt/save-my-tokens/logs/mcp-server.log"
    defaultTimeoutMs := 300000
    secondsText := fun ms => showInt (ms / 1000) }

/-- Options with nothing supplied. -/
def noOptions : Options :=
  { context := none, mode := none, project_dir := none, run_multiple := none
    timeout := none }

/-- The flag/value pair of an option that counts as supplied whenever it is
present, as the specification words it. -/
def suppliedPair (flag : Str) : Option Str → List Str
  | some v => [flag, v]
  | none => []

/-- The argument vector as the specification words it: `--task`, `--prompt`
and the pair of every option that was supplied. -/
def suppliedArgs (task prompt : Str) (options : Options) : List Str :=
  [js "--task", task, js "--prompt", prompt] ++
    suppliedPair (js "--context") options.context ++
    suppliedPair (js "--mode") options.mode ++
    suppliedPair (js "--project-dir") options.project_dir ++
    suppliedPair (js "--run-multiple")
      (options.run_multiple.map fun r => if r then js "true" else js "false")

/-- The flag/value pair of a text option: present when the option was given a
non-empty text. -/
def textPair (flag : Str) : Option Str → List Str
  | some v => if v ≠ [] then [flag, v] else []
  | none => []

/-- What is observed of a worker: whether its process exists, its `killed`
flag, the signals delivered to it, and the invocations of `resolve`/`reject`. -/
def Task.observed (t : Task) : Bool × Bool × List Signal × List Settlement :=
  (t.child.running, t.child.killed, t.child.signals, t.settlements)

/-- What identifies a closure in the registry: its task id, and whether its
`close` and `error` handlers have run. -/
def Task.key (t : Task) : Str × Bool × Bool := (t.taskId, t.closed, t.errored)

/-- A closure whose `close` or `error` handler has run. -/
def Task.finished (t : Task) : Bool := t.closed || t.errored

/-- The events that invoke `resolve` or `reject` for closure `i`: the expiry of
its timeout, its spawn error and its `close`. -/
def Event.settles (i : Nat) : Event → Bool
  | .timeout j => j = i
  | .close j _ => j = i
  | .error j _ => j = i
  | _ => false

/-- The registry invariant: every task id in `runningTasks` is the id of a
closure whose `close` and `error` handlers have not run. -/
def RegistryInv (sv : Server) : Prop :=
  ∀ e ∈ sv.runningTasks,
    ∃ (j : Nat) (t : Task), sv.tasks[j]? = some t ∧ Task.key t = (e.1, false, false)

/-- The registry of `sv1` is that of `sv` and every closure has kept its key. -/
def SameRegistry (sv sv1 : Server) : Prop :=
  sv1.runningTasks = sv.runningTasks ∧
    ∀ j : Nat, (sv1.tasks[j]?).map Task.key = (sv.tasks[j]?).map Task.key

/-- A call, the end of the worker's process and its `close` with exit code 0. -/
def closedRun : List Event :=
  [.call (js "research-1") (js "research") (.string (js "test")) noOptions true,
    .exit 0, .close 0 (some 0)]

/-- The server after `closedRun`. -/
def closedServer : Server :=
  match run exampleConfig Server.start closedRun with
  | some sv => sv
  | none => Server.start

/-- A call, the expiry of its timeout, then the end of the worker (ended by
the signal, so without an exit code) and its `close`. -/
def timeoutThenCloseRun : List Event :=
  [.call (js "research-1") (js "research") (.string (js "test")) noOptions true,
    .timeout 0, .exit 0, .close 0 none]

/-- The server after one valid call. -/
def spawnedServer : Server :=
  (executeTaskWithStreaming exampleConfig true Server.start (js "research-1")
    (js "research") (.string (js "test")) noOptions).1

/-- The closure of the call of `spawnedServer`, as the call leaves it. -/
def spawnedTask : Task :=
  { taskId := js "research-1", task := js "research", timeoutMs := 300000
    child :=
      { args := [js "--task", js "research", js "--prompt", js "test"]
        running := true, killed := false, signals := [] }
    stdout := [], stderr := [], progressMessages := []
    timeoutTimer := true, killTimer := false, closed := false, errored := false
    settlements := [] }

/-- The server after `timeoutThenCloseRun`. -/
def timedOutServer : Server :=
  match run exampleConfig Server.start timeoutThenCloseRun with
  | some sv => sv
  | none => Server.start

/-- The diagnostic output of the worker of the specification's example: one
progress line, then the text `boom`. -/
def boomChunks : List Chunk :=
  [.err (js "[AGENT-PROGRESS] model-fail: provider X\n") [] false, .err (js "boom") [] false]

/-! ## Task catalog -/

/-- The result of a call that may throw. -/
inductive Outcome (α : Type) where
  | ok (value : α)
  | threw (message : Str)
  deriving DecidableEq, Repr

/-- What `JSON.parse(readFileSync(taskPath, 'utf8'))` gives for a task file:
an exception (unreadable file or malformed JSON), `null`, or a value whose
properties `name`, `description` and `multi_model` are read (a property that is
absent is `undefined`; a JSON number, string, boolean or array has none of the
three). -/
inductive Parsed where
  | failure (message : Str)
  | null
  | object (name description multi_model : Value)
  deriving DecidableEq, Repr

/-- A directory entry of the tasks directory with what reading it gives. -/
structure TaskFile where
  file : Str
  content : Parsed
  deriving DecidableEq, Repr

/-- An element of the array `discoverTasks` returns. -/
structure TaskDescriptor where
  name : Value
  description : Value
  multiModel : Bool
  config : Parsed
  deriving DecidableEq, Repr

/-- The text of a value in a template literal. -/
def Value.render : Value → Str
  | .undefined => js "undefined"
  | .null => js "null"
  | .boolean b => if b then js "true" else js "false"
  | .number n => showInt n
  | .string s => s

/-- `s.endsWith(suffix)`. -/
def endsWith (s suffix : Str) : Bool := suffix.isSuffixOf s

/-- `s.replace(pattern, replacement)` for a string pattern: the first
occurrence only. -/
def replaceFirst (s pattern replacement : Str) : Str :=
  match indexOf pattern s with
  | some n => s.take n ++ replacement ++ s.drop (n + pattern.length)
  | none => s

/-- The body of the inner `try` of `discoverTasks` for one `.json` file: the
descriptor pushed, or the message of the exception thrown. -/
def loadTask (f : TaskFile) : Outcome TaskDescriptor :=
  match f.content with
  | .failure message => .threw message
  | .null => .threw (js "Cannot read properties of null (reading 'name')")
  | .object name description multi_model =>
    .ok
      { name := if name.truthy then name else .string (replaceFirst f.file (js ".json") [])
        description :=
          if description.truthy then description
          else .string (js "Execute " ++ name.render ++ js " task")
        multiModel := decide (multi_model ≠ .boolean false)
        config := f.content }

/-- The `for (const file of files)` loop of `discoverTasks`: the descriptors
pushed and the log entries written, in order. -/
def loadTasks : List TaskFile → List TaskDescriptor × List LogEntry
  | [] => ([], [])
  | f :: fs =>
    let rest := loadTasks fs
    if !endsWith f.file (js ".json") then rest
    else
      match loadTask f with
      | .ok d => (d :: rest.1, rest.2)
      | .threw message =>
        (rest.1, ⟨.error, js "Failed to load task: " ++ f.file,
          [("error", .text message)]⟩ :: rest.2)

/-- `discoverTasks()`: the descriptors returned and the log entries written.
`dirExists` is `existsSync(this.tasksPath)`, `files` what `readdirSync` gives,
each entry with what reading and parsing it gives.  (The list of names in the
metadata of 'Tasks discovered' is left out.) -/
def discoverTasks (tasksPath : Str) (dirExists : Bool) (files : Outcome (List TaskFile)) :
    List TaskDescriptor × List LogEntry :=
  if !dirExists then
    ([], [⟨.warn, js "Tasks directory not found", [("path", .text tasksPath)]⟩])
  else
    match files with
    | .threw message =>
      ([], [⟨.error, js "Failed to discover tasks", [("error", .text message)]⟩])
    | .ok fs =>
      let loaded := loadTasks fs
      (loaded.1, loaded.2 ++
        [⟨.info, js "Tasks discovered", [("count", .num loaded.1.length)]⟩])

/-! ## Health reporter -/

/-- The assertion `$` under the `m` flag: the end of the input, or a position
before a line terminator. -/
def reEol {α : Type} (k : Str → Option α) : Str → Option α
  | [] => k []
  | c :: cs => if isLineTerminator c then k (c :: cs) else none

/-- An unanchored search for a pattern that begins with the assertion `^` under
the `m` flag: the rest of the pattern is tried, leftmost first, at the positions
where `^` holds, the start of the input and every position after a line
terminator.  `atLineStart` says whether `^` holds at the current position. -/
def reSearchLines {α : Type} (m : Str → Option α) : Bool → Str → Option α
  | atLineStart, [] => if atLineStart then m [] else none
  | atLineStart, c :: cs =>
    match (if atLineStart then m (c :: cs) else none) with
    | some x => some x
    | none => reSearchLines m (isLineTerminator c) cs

/-- The class `[A-Z_]`. -/
def isUpperOrUnderscore (c : Nat) : Bool := (65 ≤ c && c ≤ 90) || c == 95

/-- `/^[A-Z_]+_API_KEY=.+$/m.test(envContent)`, the test of `checkHealth`. -/
def apiKeyRegex (envContent : Str) : Bool :=
  (reSearchLines
    (rePlus isUpperOrUnderscore fun _ r1 =>
      reLit (js "_API_KEY=") (fun r2 =>
        rePlus (fun c => !isLineTerminator c) (fun _ r3 =>
          reEol (fun _ => some ()) r3) r2) r1)
    true envContent).isSome

/-- The test of `runStatus` in `bin/cli.js` for one key:
`new RegExp('^' + key + '=.+$', 'm').test(envContent) &&
!envContent.includes(key + '=your_')`. -/
def cliKeyConfigured (key envContent : Str) : Bool :=
  (reSearchLines
    (reLit (key ++ js "=") fun r1 =>
      rePlus (fun c => !isLineTerminator c) (fun _ r2 =>
        reEol (fun _ => some ()) r2) r1)
    true envContent).isSome &&
  !includes envContent (key ++ js "=your_")

/-- The `configuredCount` of `runStatus` in `bin/cli.js`. -/
def cliConfiguredCount (envContent : Str) : Nat :=
  ([js "CEREBRAS_API_KEY", js "MISTRAL_API_KEY"].filter
    fun key => cliKeyConfigured key envContent).length

/-- The overall status of a health report. -/
inductive Status where
  | healthy | warning | degraded
  deriving DecidableEq, Repr

/-- The entry `checks.router`. -/
structure RouterCheck where
  available : Bool
  path : Str
  executable : Bool
  deriving DecidableEq, Repr

/-- The entry `checks.environment`. -/
structure EnvironmentCheck where
  configured : Bool
  hasApiKeys : Bool
  deriving DecidableEq, Repr

/-- The entry `checks.tasks`. -/
structure TasksCheck where
  directory : Bool
  count : Nat
  available : List Value
  deriving DecidableEq, Repr

/-- The entry `checks.logs`. -/
structure LogsCheck where
  directory : Bool
  logFile : Str
  writable : Bool
  deriving DecidableEq, Repr

/-- The object `checkHealth` returns (its `timestamp` is left out); `message`
is `none` when the property is absent. -/
structure HealthReport where
  status : Status
  version : Str
  features : List Str
  router : RouterCheck
  environment : EnvironmentCheck
  tasks : TasksCheck
  logs : LogsCheck
  message : Option Str
  deriving DecidableEq, Repr

/-- What `checkHealth` finds on the file system: whether the worker exists and
the `mode` of its `stat` (or the error of `stat`), whether the environment file
exists and its content (or the error of reading it), the tasks directory and
its files, whether the logs directory exists and whether the zero-byte append
to the log file succeeds. -/
structure Probes where
  routerExists : Bool
  routerMode : Outcome Nat
  envExists : Bool
  envContent : Outcome Str
  tasksDirExists : Bool
  taskFiles : Outcome (List TaskFile)
  logsDirExists : Bool
  logWritable : Bool

/-- `checkHealth()`: the report and the log entries written on the way.  The
tasks directory is `join(freeAgentsPath, 'tasks')`. -/
def checkHealth (cfg : Config) (p : Probes) : HealthReport × List LogEntry :=
  let routerStat : Bool × List LogEntry :=
    if p.routerExists then
      match p.routerMode with
      | .ok mode => (decide (Nat.land mode 73 ≠ 0), [])
      | .threw message =>
        (false, [⟨.error, js "Failed to check router", [("error", .text message)]⟩])
    else (false, [])
  let router : RouterCheck :=
    { available := p.routerExists, path := cfg.routerPath, executable := routerStat.1 }
  let envKeys : Bool × List LogEntry :=
    if p.envExists then
      match p.envContent with
      | .ok envContent => (apiKeyRegex envContent, [])
      | .threw message =>
        (false, [⟨.error, js "Failed to check environment", [("error", .text message)]⟩])
    else (false, [])
  let environment : EnvironmentCheck :=
    { configured := p.envExists, hasApiKeys := envKeys.1 }
  let discovered := discoverTasks (cfg.freeAgentsPath ++ js "/tasks") p.tasksDirExists
    p.taskFiles
  let tasks : TasksCheck :=
    { directory := p.tasksDirExists, count := discovered.1.length
      available := discovered.1.map (·.name) }
  let logs : LogsCheck :=
    { directory := p.logsDirExists, logFile := cfg.logFile, writable := p.logWritable }
  let status0 : Status := if p.logWritable then .healthy else .warning
  let overall : Status × Option Str :=
    if !router.available || !router.executable then
      (.degraded, some (js "Router not available or not executable"))
    else if !environment.configured || !environment.hasApiKeys then
      (.warning, some (js "API keys not configured"))
    else if tasks.count = 0 then
      (.warning, some (js "No tasks available"))
    else (status0, none)
  ({ status := overall.1
     version := js "1.1.0"
     features := [js "streaming", js "agent-progress", js "real-time-updates"]
     router := router, environment := environment, tasks := tasks, logs := logs
     message := overall.2 },
    routerStat.2 ++ envKeys.2 ++ discovered.2)

/-- The status as the specification orders it: `degraded` without a usable
worker, else `warning` without credentials, else `warning` without tasks, else
`healthy`. -/
def specifiedStatus (workerUsable credentials : Bool) (taskCount : Nat) : Status :=
  if !workerUsable then .degraded
  else if !credentials then .warning
  else if taskCount = 0 then .warning
  else .healthy

/-- A task definition that parses to an object with a name and nothing else. -/
def researchFile : TaskFile :=
  { file := js "research.json"
    content := .object (.string (js "research")) .undefined .undefined }

/-- Probes of an installation in which everything is in place except that the
log file cannot be appended to. -/
def logUnwritableProbes : Probes :=
  { routerExists := true, routerMode := .ok 493
    envExists := true, envContent := .ok (js "CEREBRAS_API_KEY=csk-1234\n")
    tasksDirExists := true, taskFiles := .ok [researchFile]
    logsDirExists := true, logWritable := false }

/-- Probes of an installation in which everything is in place. -/
def healthyProbes : Probes :=
  { logUnwritableProbes with logWritable := true }

/-- Probes of an installation whose environment file is the untouched
template: its only credential lines hold placeholder values. -/
def placeholderProbes : Probes :=
  { healthyProbes with
    envContent := .ok (js ("CEREBRAS_API_KEY=your_cerebras_key_here\n" ++
      "MISTRAL_API_KEY=your_mistral_key_here\n")) }

/-- The output of a worker that reports two steps and prints 'hello'. -/
def helloChunks : List Chunk :=
  [.err (js "[AGENT-PROGRESS] model-start: contacting provider X\n") [] false,
    .out (js "hello"),
    .err (js "[AGENT-PROGRESS] model-complete: done\n") [] false]

/-- The 'Router stderr' debug entry of the `stderr` handler for `line`. -/
def routerStderrEntry (taskId line : Str) : LogEntry :=
  ⟨.debug, js "Router stderr", [("taskId", .text taskId), ("line", .text (trim line))]⟩

/-! # Theorems -/

/-! ## Claims C1 and C2: validation and the argument vector -/

/-- C1: for every prompt that is empty or longer than 50,000 characters,
`executeTaskWithStreaming` rejects, with 'Invalid prompt' when it is empty and
with 'Prompt too long (max 50000 characters)' when it is too long, and leaves
the whole server state as it was: no worker is spawned (`tasks`) and nothing
is inserted into `runningTasks`. -/
theorem executeTaskWithStreaming_invalid_prompt (cfg : Config) (routerExists : Bool)
    (sv : Server) (taskId task prompt : Str) (options : Options)
    (h : prompt = [] ∨ prompt.length > 50000) :
    let r := executeTaskWithStreaming cfg routerExists sv taskId task (.string prompt) options
    r.1 = sv ∧ r.1.tasks = sv.tasks ∧ r.1.runningTasks = sv.runningTasks ∧
      (prompt = [] → r.2 = .rejected (js "Invalid prompt")) ∧
      (prompt ≠ [] → r.2 = .rejected (js "Prompt too long (max 50000 characters)")) := by
  rcases h with h | h
  · subst h
    simp [executeTaskWithStreaming, Value.truthy, Value.isString]
  · have hne : prompt ≠ [] := by
      intro h0
      simp [h0] at h
    have hempty : prompt.isEmpty = false := by
      cases prompt with
      | nil => exact absurd rfl hne
      | cons a l => rfl
    simp [executeTaskWithStreaming, Value.truthy, Value.isString, Value.text, hempty, h, hne]

/-- The instance of C1 at a prompt of 50,001 characters. -/
theorem executeTaskWithStreaming_invalid_prompt_witness :
    (List.replicate 50001 97).length > 50000 ∧
    (executeTaskWithStreaming exampleConfig true Server.start (js "research-1")
      (js "research") (.string (List.replicate 50001 97)) noOptions).2 =
      .rejected (js "Prompt too long (max 50000 characters)") :=
  have hlen : (List.replicate 50001 97).length > 50000 := by
    rw [List.length_replicate]
    exact Nat.lt_succ_self 50000
  ⟨hlen, (executeTaskWithStreaming_invalid_prompt exampleConfig true Server.start
    (js "research-1") (js "research") (List.replicate 50001 97) noOptions
    (Or.inr hlen)).2.2.2.2 (List.ne_nil_of_length_pos (Nat.lt_trans (Nat.succ_pos _) hlen))⟩

/-- C2 as stated fails: with `context` supplied as the empty string the
worker is spawned with `['--task', 'research', '--prompt', 'test']`, while the
claim's vector has the pair `'--context', ''` for the supplied option. -/
theorem executeTaskWithStreaming_empty_context_counterexample :
    ((executeTaskWithStreaming exampleConfig true Server.start (js "research-1")
        (js "research") (.string (js "test"))
        { noOptions with context := some [] }).1.tasks.map (·.child.args) =
      [[js "--task", js "research", js "--prompt", js "test"]]) ∧
    suppliedArgs (js "research") (js "test") { noOptions with context := some [] } =
      [js "--task", js "research", js "--prompt", js "test", js "--context", []] ∧
    (executeTaskWithStreaming exampleConfig true Server.start (js "research-1")
        (js "research") (.string (js "test"))
        { noOptions with context := some [] }).1.tasks.map (·.child.args) ≠
      [suppliedArgs (js "research") (js "test") { noOptions with context := some [] }] := by
  decide

/-- C2, amended: for every tool name, every valid prompt and every options
record, when the worker executable exists `executeTaskWithStreaming` spawns
exactly one worker, leaves the promise pending, and the worker's argument vector
is `['--task', toolName, '--prompt', prompt]` followed, in this order, by the
pairs `--context`, `--mode`, `--project-dir` for those of the three that were
given a non-empty text, and by `--run-multiple` with `true` or `false` when
`run_multiple` was supplied. -/
theorem executeTaskWithStreaming_spawn_args (cfg : Config) (sv : Server)
    (taskId task prompt : Str) (options : Options)
    (hne : prompt ≠ []) (hlen : prompt.length ≤ 50000) :
    let r := executeTaskWithStreaming cfg true sv taskId task (.string prompt) options
    r.2 = .pending sv.tasks.length ∧
    ∃ t : Task, r.1.tasks = sv.tasks ++ [t] ∧
      t.child.args =
        [js "--task", task, js "--prompt", prompt] ++
          textPair (js "--context") options.context ++
          textPair (js "--mode") options.mode ++
          textPair (js "--project-dir") options.project_dir ++
          suppliedPair (js "--run-multiple")
            (options.run_multiple.map fun r => if r then js "true" else js "false") := by
  have hempty : prompt.isEmpty = false := by
    cases prompt with
    | nil => exact absurd rfl hne
    | cons a l => rfl
  have hlen2 : ¬ prompt.length > 50000 := Nat.not_lt.mpr hlen
  obtain ⟨context, mode, project_dir, run_multiple, timeout⟩ := options
  simp only [executeTaskWithStreaming, Value.truthy, Value.isString, Value.text, hempty]
  simp only [hlen2]
  refine ⟨by simp, _, by simp; rfl, ?_⟩
  simp only [buildArgs, textPair, suppliedPair]
  cases context <;> cases mode <;> cases project_dir <;> cases run_multiple <;>
    simp <;> split_ifs <;> simp

/-- The instance of C2 at the call of `test-spawn.js` (`run_multiple` false)
with an empty `context` added. -/
theorem executeTaskWithStreaming_spawn_args_witness :
    js "test" ≠ [] ∧ (js "test").length ≤ 50000 ∧
    ∃ t : Task,
      (executeTaskWithStreaming exampleConfig true Server.start (js "research-1")
        (js "research") (.string (js "test"))
        { noOptions with context := some [], run_multiple := some false }).1.tasks =
        Server.start.tasks ++ [t] ∧
      t.child.args = [js "--task", js "research", js "--prompt", js "test",
        js "--run-multiple", js "false"] :=
  ⟨by decide, by decide,
    (executeTaskWithStreaming_spawn_args exampleConfig Server.start (js "research-1")
      (js "research") (js "test")
      { noOptions with context := some [], run_multiple := some false }
      (by decide) (by decide)).2⟩

/-! ## Claim C3: the timeout -/

/-- C3, evaluated on a worker that does not exit: when the timeout timer fires
the worker is sent `SIGTERM` and the promise is rejected with the timeout
message naming the log file; `SIGTERM` having been delivered, `child.killed` is
`true`, so when the 5000 ms timer fires the guard `!child.killed` fails and the
worker, still alive, is sent nothing: `SIGKILL` is never delivered. -/
theorem timeout_sends_no_SIGKILL :
    (run exampleConfig Server.start
        [.call (js "research-1") (js "research") (.string (js "test")) noOptions true,
          .timeout 0]).map (fun sv => sv.tasks.map Task.observed) =
      some [(true, true, [.SIGTERM],
        [.reject (js ("Task timeout after 300s.\n\nCheck logs: " ++
          "/opt/save-my-tokens/logs/mcp-server.log"))])] ∧
    (run exampleConfig Server.start
        [.call (js "research-1") (js "research") (.string (js "test")) noOptions true,
          .timeout 0, .killTimeout 0]).map (fun sv => sv.tasks.map Task.observed) =
      some [(true, true, [.SIGTERM],
        [.reject (js ("Task timeout after 300s.\n\nCheck logs: " ++
          "/opt/save-my-tokens/logs/mcp-server.log"))])] :=
  ⟨rfl, rfl⟩

/-! ## Claim C4: the registry -/

theorem getElem?_lt_length {α : Type} {l : List α} {i : Nat} {a : α} (h : l[i]? = some a) :
    i < l.length := by
  by_contra hn
  rw [List.getElem?_eq_none (Nat.le_of_not_lt hn)] at h
  exact Option.noConfusion h

theorem key_set (tasks : List Task) (i : Nat) (t t1 : Task) (h : tasks[i]? = some t)
    (hk : Task.key t1 = Task.key t) (j : Nat) :
    ((tasks.set i t1)[j]?).map Task.key = (tasks[j]?).map Task.key := by
  rw [List.getElem?_set]
  by_cases hij : i = j
  · subst hij
    simp [getElem?_lt_length h, h, hk]
  · simp [hij]

theorem SameRegistry.refl (sv : Server) : SameRegistry sv sv := ⟨rfl, fun _ => rfl⟩

theorem SameRegistry.trans {a b c : Server} (h1 : SameRegistry a b) (h2 : SameRegistry b c) :
    SameRegistry a c :=
  ⟨h2.1.trans h1.1, fun j => (h2.2 j).trans (h1.2 j)⟩

theorem SameRegistry.inv {sv sv1 : Server} (h : SameRegistry sv sv1) (hinv : RegistryInv sv) :
    RegistryInv sv1 := by
  intro e he
  rw [h.1] at he
  obtain ⟨j, t, hj, hk⟩ := hinv e he
  have h2 := h.2 j
  rw [hj] at h2
  cases hj1 : sv1.tasks[j]? with
  | none => simp [hj1] at h2
  | some t1 =>
    refine ⟨j, t1, hj1, ?_⟩
    simp [hj1] at h2
    rw [h2, hk]

theorem sameRegistry_setTask (sv : Server) (i : Nat) (t t1 : Task)
    (h : sv.tasks[i]? = some t) (hk : Task.key t1 = Task.key t) :
    SameRegistry sv (sv.setTask i t1) :=
  ⟨rfl, key_set sv.tasks i t t1 h hk⟩

theorem sameRegistry_logged (sv : Server) (entries : List LogEntry) :
    SameRegistry sv (sv.logged entries) := ⟨rfl, fun _ => rfl⟩

theorem sameRegistry_shutdownTerm (sv : Server) (e : Str × Nat) :
    SameRegistry sv (shutdownTerm sv e) := by
  unfold shutdownTerm
  simp only
  split
  · rename_i t ht
    exact (sameRegistry_logged sv _).trans (sameRegistry_setTask _ _ t _ ht rfl)
  · exact sameRegistry_logged sv _

theorem sameRegistry_shutdownKill (sv : Server) (e : Str × Nat) :
    SameRegistry sv (shutdownKill sv e) := by
  unfold shutdownKill
  split
  · rename_i t ht
    split
    · exact (sameRegistry_logged sv _).trans (sameRegistry_setTask _ _ t _ ht rfl)
    · exact SameRegistry.refl sv
  · exact SameRegistry.refl sv

theorem sameRegistry_foldl (f : Server → Str × Nat → Server)
    (hf : ∀ sv e, SameRegistry sv (f sv e)) (l : List (Str × Nat)) (sv : Server) :
    SameRegistry sv (l.foldl f sv) := by
  induction l generalizing sv with
  | nil => exact SameRegistry.refl sv
  | cons e l ih => exact (hf sv e).trans (ih (f sv e))

theorem sameRegistry_onShutdown (sv : Server) (signal : Str) :
    SameRegistry sv (onShutdown sv signal) := by
  unfold onShutdown
  simp only
  split
  · have h1 := sameRegistry_foldl shutdownTerm sameRegistry_shutdownTerm
      (sv.logged [⟨.info, js "Shutdown requested", [("signal", .text signal)]⟩]).runningTasks
      { sv.logged [⟨.info, js "Shutdown requested", [("signal", .text signal)]⟩] with
        console := (sv.logged [⟨.info, js "Shutdown requested",
            [("signal", .text signal)]⟩]).console ++
          [js "[SHUTDOWN] Canceling " ++
            showInt (sv.logged [⟨.info, js "Shutdown requested",
              [("signal", .text signal)]⟩]).runningTasks.length ++
            js " running tasks..."] }
    exact ⟨h1.1, h1.2⟩
  · exact ⟨rfl, fun _ => rfl⟩

theorem sameRegistry_onShutdownResume (sv : Server) :
    SameRegistry sv (onShutdownResume sv) := by
  unfold onShutdownResume
  exact (sameRegistry_foldl shutdownKill sameRegistry_shutdownKill _ _).trans
    ⟨rfl, fun _ => rfl⟩

theorem mem_mapSet {m : List (Str × Nat)} {k : Str} {v : Nat} {e : Str × Nat}
    (h : e ∈ mapSet m k v) : e = (k, v) ∨ e ∈ m := by
  unfold mapSet at h
  split at h
  · rw [List.mem_map] at h
    obtain ⟨a, ha, hae⟩ := h
    split at hae
    · exact Or.inl hae.symm
    · exact Or.inr (hae ▸ ha)
  · rw [List.mem_append] at h
    rcases h with h | h
    · exact Or.inr h
    · exact Or.inl (List.mem_singleton.mp h)

theorem registryInv_delete (sv : Server) (i : Nat) (t t1 : Task) (log : List LogEntry)
    (hinv : RegistryInv sv) (h : sv.tasks[i]? = some t) :
    RegistryInv { sv with
      runningTasks := mapDelete sv.runningTasks t.taskId
      log := log
      tasks := sv.tasks.set i t1 } := by
  intro e he
  simp only [mapDelete, List.mem_filter, decide_eq_true_eq] at he
  obtain ⟨j, t0, hj, hk⟩ := hinv e he.1
  refine ⟨j, t0, ?_, hk⟩
  have hij : i ≠ j := by
    intro hij
    subst hij
    rw [h] at hj
    cases hj
    simp [Task.key] at hk
    exact he.2 hk.1.symm
  simp only
  rw [List.getElem?_set_ne hij]
  exact hj

theorem registryInv_taskStep (cfg : Config) (sv sv1 : Server) (i : Nat) (t : Task)
    (ev : Event) (hinv : RegistryInv sv) (h : sv.tasks[i]? = some t)
    (hs : taskStep cfg sv i t ev = some sv1) : RegistryInv sv1 := by
  cases ev <;> simp only [taskStep] at hs
  case call => cases hs
  case shutdown => cases hs
  case shutdownResume => cases hs
  case stdoutData =>
    split at hs
    · cases hs
    · cases hs
      exact (sameRegistry_setTask sv i t _ h (by rfl)).inv hinv
  case stderrData =>
    split at hs
    · cases hs
    · cases hs
      rename_i data now sendThrows _
      exact SameRegistry.inv (show SameRegistry sv (onStderrData sv i t data now sendThrows)
        from ⟨rfl, key_set sv.tasks i t _ h (by rfl)⟩) hinv
  case timeout =>
    split at hs
    · cases hs
      refine SameRegistry.inv ((sameRegistry_logged sv _).trans
        (sameRegistry_setTask _ i t _ h ?_)) hinv
      simp only [Task.key]
      split <;> rfl
    · cases hs
  case killTimeout =>
    split at hs
    · cases hs
      unfold onKillTimeout
      split
      · exact SameRegistry.inv ((sameRegistry_logged sv _).trans
          (sameRegistry_setTask _ i t _ h (by rfl))) hinv
      · exact (sameRegistry_setTask sv i t _ h (by rfl)).inv hinv
    · cases hs
  case exit =>
    split at hs
    · cases hs
      exact (sameRegistry_setTask sv i t _ h (by rfl)).inv hinv
    · cases hs
  case close =>
    split at hs
    · cases hs
      exact registryInv_delete sv i t _ _ hinv h
    · cases hs
  case error =>
    cases hs
    exact registryInv_delete sv i t _ _ hinv h

theorem registryInv_call (cfg : Config) (routerExists : Bool) (sv : Server)
    (taskId task : Str) (prompt : Value) (options : Options) (hinv : RegistryInv sv) :
    RegistryInv (executeTaskWithStreaming cfg routerExists sv taskId task prompt options).1 := by
  unfold executeTaskWithStreaming
  simp only
  split
  · exact hinv
  · split
    · exact hinv
    · split
      · exact SameRegistry.inv ⟨rfl, fun _ => rfl⟩ hinv
      · intro e he
        simp only at he
        rcases mem_mapSet he with he | he
        · subst he
          exact ⟨sv.tasks.length, _, List.getElem?_concat_length _ _, by rfl⟩
        · obtain ⟨j, t0, hj, hk⟩ := hinv e he
          refine ⟨j, t0, ?_, hk⟩
          simp only
          rw [List.getElem?_append_left (getElem?_lt_length hj)]
          exact hj

theorem registryInv_step (cfg : Config) (sv sv1 : Server) (ev : Event)
    (hinv : RegistryInv sv) (hs : step cfg sv ev = some sv1) : RegistryInv sv1 := by
  unfold step at hs
  split at hs
  · cases hs
  · split at hs
    · cases hs
      exact registryInv_call cfg _ sv _ _ _ _ hinv
    · cases hs
      exact (sameRegistry_onShutdown sv _).inv hinv
    · split at hs
      · cases hs
        exact (sameRegistry_onShutdownResume sv).inv hinv
      · cases hs
    · split at hs
      · split at hs
        · rename_i _ i _ _ t ht
          exact registryInv_taskStep cfg sv sv1 i t _ hinv ht hs
        · cases hs
      · cases hs

theorem registryInv_run (cfg : Config) (evs : List Event) (sv sv1 : Server)
    (hinv : RegistryInv sv) (hr : run cfg sv evs = some sv1) : RegistryInv sv1 := by
  induction evs generalizing sv with
  | nil =>
    cases hr
    exact hinv
  | cons ev evs ih =>
    simp only [run] at hr
    split at hr
    · rename_i sv2 hs
      exact ih sv2 (registryInv_step cfg sv sv2 ev hinv hs) hr
    · cases hr

/-- C4 as stated fails: after the call and the expiry of the timeout the only
dispatched task has its promise settled (rejected with the timeout message),
and its entry is still in `runningTasks`. -/
theorem settled_by_timeout_still_registered :
    ∃ sv, run exampleConfig Server.start
        [.call (js "research-1") (js "research") (.string (js "test")) noOptions true,
          .timeout 0] = some sv ∧
      (∀ t ∈ sv.tasks, t.outcome ≠ none) ∧
      sv.runningTasks = [(js "research-1", 0)] ∧ sv.runningTasks ≠ [] :=
  ⟨_, rfl, by decide, rfl, by decide⟩

/-- C4, amended: in every reachable state of the supervisor in which the
`close` or the `error` handler of every spawned worker has run, the
`runningTasks` registry is empty. -/
theorem registry_empty_when_all_finished (cfg : Config) (sv : Server)
    (hreach : Reachable cfg sv) (hall : ∀ t ∈ sv.tasks, t.finished = true) :
    sv.runningTasks = [] := by
  obtain ⟨evs, hr⟩ := hreach
  have hinv : RegistryInv sv :=
    registryInv_run cfg evs Server.start sv (fun e he => absurd he (List.not_mem_nil e)) hr
  cases hreg : sv.runningTasks with
  | nil => rfl
  | cons e rest =>
    exfalso
    obtain ⟨j, t, hj, hk⟩ := hinv e (by rw [hreg]; exact List.mem_cons_self e rest)
    have hfin := hall t (List.getElem?_mem hj)
    simp only [Task.key, Prod.mk.injEq] at hk
    simp [Task.finished, hk.2.1, hk.2.2] at hfin

/-- The instance of C4 (amended) at the server whose only worker has closed. -/
theorem registry_empty_when_all_finished_witness :
    Reachable exampleConfig closedServer ∧ closedServer.tasks.length = 1 ∧
      (∀ t ∈ closedServer.tasks, t.finished = true) ∧ closedServer.runningTasks = [] :=
  have hreach : Reachable exampleConfig closedServer := ⟨closedRun, rfl⟩
  have hall : ∀ t ∈ closedServer.tasks, t.finished = true := by decide
  ⟨hreach, rfl, hall, registry_empty_when_all_finished exampleConfig closedServer hreach hall⟩

/-! ## Claim C5: invocations of `resolve` and `reject` -/

theorem settles_of_target_ne {ev : Event} {i j : Nat} (h : ev.target = some j) (hij : i ≠ j) :
    ev.settles i = false := by
  cases ev <;> simp [Event.target, Event.settles] at h ⊢ <;> omega

theorem settlements_taskStep (cfg : Config) (sv sv1 : Server) (j : Nat) (tj : Task)
    (ev : Event) (htgt : ev.target = some j) (hs : taskStep cfg sv j tj ev = some sv1) :
    ∃ (t1 : Task) (extra : List Settlement), sv1.tasks = sv.tasks.set j t1 ∧
      t1.settlements = tj.settlements ++ extra ∧
      extra.length = if ev.settles j then 1 else 0 := by
  cases ev <;> simp only [taskStep] at hs <;> simp only [Event.target, Option.some.injEq] at htgt
  case call => cases hs
  case shutdown => cases hs
  case shutdownResume => cases hs
  case stdoutData =>
    split at hs
    · cases hs
    · cases hs
      exact ⟨_, [], rfl, by simp, by simp [Event.settles]⟩
  case stderrData =>
    split at hs
    · cases hs
    · cases hs
      exact ⟨_, [], rfl, by simp, by simp [Event.settles]⟩
  case timeout =>
    split at hs
    · cases hs
      refine ⟨_, [.reject (js "Task timeout after " ++ cfg.secondsText tj.timeoutMs ++
          js "s.\n\nCheck logs: " ++ cfg.logFile)], rfl, ?_, ?_⟩
      · simp only
        split <;> rfl
      · simp [Event.settles, htgt]
    · cases hs
  case killTimeout =>
    split at hs
    · cases hs
      unfold onKillTimeout
      split
      · exact ⟨_, [], rfl, by simp, by simp [Event.settles]⟩
      · exact ⟨_, [], rfl, by simp, by simp [Event.settles]⟩
    · cases hs
  case exit =>
    split at hs
    · cases hs
      exact ⟨_, [], rfl, by simp, by simp [Event.settles]⟩
    · cases hs
  case close =>
    split at hs
    · cases hs
      exact ⟨_, _, rfl, rfl, by simp [Event.settles, htgt]⟩
    · cases hs
  case error =>
    cases hs
    exact ⟨_, _, rfl, rfl, by simp [Event.settles, htgt]⟩

theorem proj_set {β : Type} (f : Task → β) (tasks : List Task) (i : Nat) (t t1 : Task)
    (h : tasks[i]? = some t) (hk : f t1 = f t) (j : Nat) :
    ((tasks.set i t1)[j]?).map f = (tasks[j]?).map f := by
  rw [List.getElem?_set]
  by_cases hij : i = j
  · subst hij
    simp [getElem?_lt_length h, h, hk]
  · simp [hij]

theorem settlements_shutdownTerm (sv : Server) (e : Str × Nat) (j : Nat) :
    ((shutdownTerm sv e).tasks[j]?).map (·.settlements) =
      (sv.tasks[j]?).map (·.settlements) := by
  unfold shutdownTerm
  simp only
  split
  · rename_i t ht
    exact proj_set _ _ _ t _ ht (by rfl) j
  · rfl

theorem settlements_shutdownKill (sv : Server) (e : Str × Nat) (j : Nat) :
    ((shutdownKill sv e).tasks[j]?).map (·.settlements) =
      (sv.tasks[j]?).map (·.settlements) := by
  unfold shutdownKill
  split
  · rename_i t ht
    split
    · exact proj_set _ _ _ t _ ht (by rfl) j
    · rfl
  · rfl

theorem settlements_foldl (f : Server → Str × Nat → Server)
    (hf : ∀ (sv : Server) (e : Str × Nat) (j : Nat),
      ((f sv e).tasks[j]?).map (·.settlements) = (sv.tasks[j]?).map (·.settlements))
    (l : List (Str × Nat)) (sv : Server) (j : Nat) :
    ((l.foldl f sv).tasks[j]?).map (·.settlements) = (sv.tasks[j]?).map (·.settlements) := by
  induction l generalizing sv with
  | nil => rfl
  | cons e l ih => exact (ih (f sv e)).trans (hf sv e j)

theorem settlements_of_map_eq {tasks tasks1 : List Task} {i : Nat} {t : Task}
    (h : (tasks1[i]?).map (·.settlements) = (tasks[i]?).map (·.settlements))
    (ht : tasks[i]? = some t) :
    ∃ t1, tasks1[i]? = some t1 ∧ t1.settlements = t.settlements := by
  rw [ht] at h
  cases h1 : tasks1[i]? with
  | none => simp [h1] at h
  | some t1 =>
    simp [h1] at h
    exact ⟨t1, rfl, h⟩

theorem settlements_step (cfg : Config) (sv sv1 : Server) (ev : Event) (i : Nat) (t : Task)
    (hs : step cfg sv ev = some sv1) (ht : sv.tasks[i]? = some t) :
    ∃ (t1 : Task) (extra : List Settlement), sv1.tasks[i]? = some t1 ∧
      t1.settlements = t.settlements ++ extra ∧
      extra.length = if ev.settles i then 1 else 0 := by
  unfold step at hs
  split at hs
  · cases hs
  · split at hs
    · cases hs
      refine ⟨t, [], ?_, by simp, by simp [Event.settles]⟩
      unfold executeTaskWithStreaming
      simp only
      split
      · exact ht
      · split
        · exact ht
        · split
          · exact ht
          · simp only
            rw [List.getElem?_append_left (getElem?_lt_length ht)]
            exact ht
    · cases hs
      rename_i signal
      have h : ((onShutdown sv signal).tasks[i]?).map (·.settlements) =
          (sv.tasks[i]?).map (·.settlements) := by
        unfold onShutdown
        simp only
        split
        · exact settlements_foldl shutdownTerm settlements_shutdownTerm _ _ i
        · rfl
      obtain ⟨t1, h1, h2⟩ := settlements_of_map_eq h ht
      exact ⟨t1, [], h1, by simp [h2], by simp [Event.settles]⟩
    · split at hs
      · cases hs
        have h : ((onShutdownResume sv).tasks[i]?).map (·.settlements) =
            (sv.tasks[i]?).map (·.settlements) := by
          unfold onShutdownResume
          exact settlements_foldl shutdownKill settlements_shutdownKill _ _ i
        obtain ⟨t1, h1, h2⟩ := settlements_of_map_eq h ht
        exact ⟨t1, [], h1, by simp [h2], by simp [Event.settles]⟩
      · cases hs
    · split at hs
      · split at hs
        · rename_i _ j htgt _ tj hj
          obtain ⟨t1, extra, h1, h2, h3⟩ := settlements_taskStep cfg sv sv1 j tj _ htgt hs
          by_cases hij : i = j
          · subst hij
            rw [ht] at hj
            cases hj
            refine ⟨t1, extra, ?_, h2, h3⟩
            rw [h1, List.getElem?_set_self (getElem?_lt_length ht)]
          · refine ⟨t, [], ?_, by simp, by simp [settles_of_target_ne htgt hij]⟩
            rw [h1, List.getElem?_set_ne (fun h => hij h.symm)]
            exact ht
        · cases hs
      · cases hs

/-- C5 as stated fails: when the timeout of a worker expires and the worker
then closes, `reject` is invoked twice for the task, once by the timer
callback and once by the `close` handler. -/
theorem reject_invoked_twice :
    settlementsAfter exampleConfig Server.start timeoutThenCloseRun 0 =
      some [.reject (js ("Task timeout after 300s.\n\nCheck logs: " ++
          "/opt/save-my-tokens/logs/mcp-server.log")),
        .reject (js ("Router failed (exit null): Unknown error\n\nCheck logs: " ++
          "/opt/save-my-tokens/logs/mcp-server.log"))] ∧
    (settlementsAfter exampleConfig Server.start timeoutThenCloseRun 0).map List.length ≠
      some 1 :=
  ⟨rfl, by decide⟩

/-- C5, amended: for every task and every sequence of events the server
handles, the number of invocations of `resolve` and `reject` made for the task
grows by the number of timeout-expiry, spawn-error and process-close events of
that task in the sequence (stream data and every other event invoke neither),
and the invocations made before stay first, so the promise keeps the outcome of
the first invocation. -/
theorem settlements_count (cfg : Config) (evs : List Event) (sv sv1 : Server) (i : Nat)
    (t : Task) (hr : run cfg sv evs = some sv1) (ht : sv.tasks[i]? = some t) :
    ∃ t1 : Task, sv1.tasks[i]? = some t1 ∧
      t1.settlements.length =
        t.settlements.length + (evs.filter (Event.settles i)).length ∧
      t.settlements <+: t1.settlements ∧
      (t.outcome ≠ none → t1.outcome = t.outcome) := by
  induction evs generalizing sv t with
  | nil =>
    cases hr
    exact ⟨t, ht, by simp, List.prefix_refl _, fun _ => rfl⟩
  | cons ev evs ih =>
    simp only [run] at hr
    split at hr
    · rename_i sv2 hs
      obtain ⟨t2, extra, h1, h2, h3⟩ := settlements_step cfg sv sv2 ev i t hs ht
      obtain ⟨t1, h4, h5, h6, h7⟩ := ih sv2 t2 hr h1
      have hpre : t.settlements <+: t2.settlements := h2 ▸ List.prefix_append _ _
      refine ⟨t1, h4, ?_, hpre.trans h6, ?_⟩
      · rw [h5, h2, List.length_append, h3, List.filter_cons]
        split
        · simp
          omega
        · simp
      · intro hne
        have h8 : t2.outcome = t.outcome := by
          unfold Task.outcome at hne ⊢
          rw [h2]
          cases hset : t.settlements with
          | nil => simp [hset] at hne
          | cons a l => simp
        rw [← h8]
        exact h7 (h8 ▸ hne)
    · cases hr

/-- The instance of C5 (amended) at a worker whose timeout expires and which
then closes: two events of the three kinds, two invocations. -/
theorem settlements_count_witness :
    run exampleConfig spawnedServer [.timeout 0, .exit 0, .close 0 none] =
      some timedOutServer ∧
    spawnedServer.tasks[0]? = some spawnedTask ∧
    ∃ t1 : Task, timedOutServer.tasks[0]? = some t1 ∧
      t1.settlements.length = spawnedTask.settlements.length +
        (([.timeout 0, .exit 0, .close 0 none] : List Event).filter
          (Event.settles 0)).length ∧
      spawnedTask.settlements <+: t1.settlements ∧
      (spawnedTask.outcome ≠ none → t1.outcome = spawnedTask.outcome) :=
  ⟨rfl, rfl, settlements_count exampleConfig [.timeout 0, .exit 0, .close 0 none]
    spawnedServer timedOutServer 0 spawnedTask rfl rfl⟩

/-! ## Claim C6: shutdown -/

/-- C6, evaluated on one running worker that does not exit: the shutdown
handler sends it `SIGTERM` at once, which sets `child.killed`; after the
2000 ms pause the guard `!child.killed` fails, so the worker, still alive, is
not sent `SIGKILL`, and the host exits with status 0. -/
theorem shutdown_sends_no_SIGKILL :
    (run exampleConfig Server.start
        [.call (js "research-1") (js "research") (.string (js "test")) noOptions true,
          .shutdown (js "SIGTERM")]).map
        (fun sv => (sv.tasks.map Task.observed, sv.exitStatus)) =
      some ([(true, true, [.SIGTERM], [])], none) ∧
    (run exampleConfig Server.start
        [.call (js "research-1") (js "research") (.string (js "test")) noOptions true,
          .shutdown (js "SIGTERM"), .shutdownResume]).map
        (fun sv => (sv.tasks.map Task.observed, sv.exitStatus)) =
      some ([(true, true, [.SIGTERM], [])], some 0) :=
  ⟨rfl, rfl⟩

/-! ## Lemmas on the regular-expression combinators -/

theorem reLit_append {α : Type} (lit : Str) (k : Str → Option α) (s : Str) :
    reLit lit k (lit ++ s) = k s := by
  have h : lit.isPrefixOf (lit ++ s) = true :=
    List.isPrefixOf_iff_prefix.mpr (List.prefix_append _ _)
  simp [reLit, h]

theorem reStar_greedy {α : Type} (p : Nat → Bool) (xs rest : Str)
    (k : Str → Str → Option α) (x : α) (hxs : ∀ c ∈ xs, p c = true)
    (hrest : ∀ c, rest.head? = some c → p c = false) (hk : k xs rest = some x) :
    reStar p k (xs ++ rest) = some x := by
  induction xs generalizing k with
  | nil =>
    cases rest with
    | nil => simpa [reStar] using hk
    | cons c cs =>
      have hc : p c = false := hrest c rfl
      simpa [reStar, hc] using hk
  | cons a xs ih =>
    have ha : p a = true := hxs a (List.mem_cons_self a xs)
    have h := ih (fun m r => k (a :: m) r) (fun c hc => hxs c (List.mem_cons_of_mem a hc)) hk
    simp [reStar, ha, h]

theorem rePlus_greedy {α : Type} (p : Nat → Bool) (a : Nat) (xs rest : Str)
    (k : Str → Str → Option α) (x : α) (hxs : ∀ c ∈ a :: xs, p c = true)
    (hrest : ∀ c, rest.head? = some c → p c = false) (hk : k (a :: xs) rest = some x) :
    rePlus p k (a :: xs ++ rest) = some x := by
  have ha : p a = true := hxs a (List.mem_cons_self a xs)
  have h := reStar_greedy p xs rest (fun m r => k (a :: m) r) x
    (fun c hc => hxs c (List.mem_cons_of_mem a hc)) hrest hk
  simp [rePlus, ha, h]

theorem reSearch_head {α : Type} (m : Str → Option α) (s : Str) (x : α)
    (h : m s = some x) : reSearch m s = some x := by
  cases s with
  | nil => simpa [reSearch] using h
  | cons c cs => simp [reSearch, h]

theorem dropWhile_head_not (p : Nat → Bool) (s : Str) :
    ∀ c, (s.dropWhile p).head? = some c → p c = false := by
  intro c hc
  have h := List.head?_dropWhile_not p s
  rw [hc] at h
  exact h

theorem dropWhile_ne_nil_of_exists (p : Nat → Bool) (s : Str)
    (h : ∃ x ∈ s, p x = false) : s.dropWhile p ≠ [] := by
  intro hnil
  obtain ⟨x, hx, hpx⟩ := h
  have := List.dropWhile_eq_nil_iff.mp hnil x hx
  rw [hpx] at this
  exact Bool.noConfusion this

theorem trim_dropWhile (s : Str) : trim (s.dropWhile isWhiteSpace) = trim s := by
  unfold trim
  rw [List.dropWhile_idempotent]

theorem trim_ne_nil (s : Str) (h : ∃ x ∈ s, isWhiteSpace x = false) : trim s ≠ [] := by
  unfold trim
  intro hnil
  have hd := dropWhile_ne_nil_of_exists isWhiteSpace s h
  have h1 : (s.dropWhile isWhiteSpace).reverse.dropWhile isWhiteSpace = [] := by
    simpa using hnil
  have h2 := List.dropWhile_eq_nil_iff.mp h1
  have h3 := List.head_dropWhile_not isWhiteSpace s hd
  have h4 := h2 ((s.dropWhile isWhiteSpace).head hd) (by simp [List.head_mem])
  rw [h3] at h4
  exact Bool.noConfusion h4

/-! ## Claim C10: parsing a progress line -/

/-- C10: for every category text `c` that is non-blank and contains no colon,
and every message text `m` that is non-blank and contains no line terminator
(it may contain colons), `parseProgressMessage('[AGENT-PROGRESS] ' + c + ': ' + m)`
returns an event whose category is `trim(c)` and whose message is `trim(m)`. -/
theorem parseProgressMessage_tagged (now c m : Str)
    (hc : ∃ x ∈ c, isWhiteSpace x = false) (hcolon : ∀ x ∈ c, x ≠ 58)
    (hm : ∃ x ∈ m, isWhiteSpace x = false) (hlt : ∀ x ∈ m, isLineTerminator x = false) :
    parseProgressMessage now (js "[AGENT-PROGRESS] " ++ c ++ js ": " ++ m) =
      some { category := trim c, message := trim m, timestamp := now } := by
  have hc1 := dropWhile_ne_nil_of_exists isWhiteSpace c hc
  have hm1 := dropWhile_ne_nil_of_exists isWhiteSpace m hm
  obtain ⟨a, c1, hc2⟩ := List.exists_cons_of_ne_nil hc1
  obtain ⟨b, m1, hm2⟩ := List.exists_cons_of_ne_nil hm1
  have hcsub : ∀ x ∈ a :: c1, x ∈ c := fun x hx =>
    (List.dropWhile_suffix isWhiteSpace).subset (hc2 ▸ hx)
  have hmsub : ∀ x ∈ b :: m1, x ∈ m := fun x hx =>
    (List.dropWhile_suffix isWhiteSpace).subset (hm2 ▸ hx)
  have hline : js "[AGENT-PROGRESS] " ++ c ++ js ": " ++ m =
      js "[AGENT-PROGRESS]" ++ ((32 :: c.takeWhile isWhiteSpace) ++
        ((a :: c1) ++ ([58] ++ ((32 :: m.takeWhile isWhiteSpace) ++ ((b :: m1) ++ []))))) := by
    have e1 : js "[AGENT-PROGRESS] " = js "[AGENT-PROGRESS]" ++ [32] := by decide
    have e2 : js ": " = [58, 32] := by decide
    have e3 : ∀ tag wc cc wm mm : Str,
        (tag ++ [32]) ++ (wc ++ cc) ++ [58, 32] ++ (wm ++ mm) =
          tag ++ ((32 :: wc) ++ (cc ++ ([58] ++ ((32 :: wm) ++ (mm ++ []))))) := by
      intros
      simp
    have e4 := e3 (js "[AGENT-PROGRESS]") (c.takeWhile isWhiteSpace)
      (c.dropWhile isWhiteSpace) (m.takeWhile isWhiteSpace) (m.dropWhile isWhiteSpace)
    rw [List.takeWhile_append_dropWhile, List.takeWhile_append_dropWhile, hc2, hm2] at e4
    rw [e1, e2]
    exact e4
  have hmsg : rePlus (fun c => !isLineTerminator c)
      (fun message _ => some (a :: c1, message)) (b :: m1 ++ []) =
      some (a :: c1, b :: m1) :=
    rePlus_greedy _ b m1 [] _ _ (fun x hx => by simp [hlt x (hmsub x hx)])
      (fun x hx => by simp at hx) rfl
  have hws2 : reStar isWhiteSpace (fun _ r4 =>
      rePlus (fun c => !isLineTerminator c) (fun message _ => some (a :: c1, message)) r4)
      ((32 :: m.takeWhile isWhiteSpace) ++ (b :: m1 ++ [])) = some (a :: c1, b :: m1) := by
    apply reStar_greedy
    · intro x hx
      rcases List.mem_cons.mp hx with hx | hx
      · subst hx
        decide
      · exact List.mem_takeWhile_imp hx
    · intro x hx
      simp only [List.append_nil, List.head?_cons, Option.some.injEq] at hx
      subst hx
      have := dropWhile_head_not isWhiteSpace m b (by rw [hm2]; rfl)
      exact this
    · exact hmsg
  have hcat : rePlus (fun c => c != 58) (fun category r2 =>
      reLit [58] (fun r3 =>
        reStar isWhiteSpace (fun _ r4 =>
          rePlus (fun c => !isLineTerminator c) (fun message _ =>
            some (category, message)) r4) r3) r2)
      ((a :: c1) ++ ([58] ++ ((32 :: m.takeWhile isWhiteSpace) ++ (b :: m1 ++ [])))) =
      some (a :: c1, b :: m1) := by
    apply rePlus_greedy
    · intro x hx
      simpa using hcolon x (hcsub x hx)
    · intro x hx
      simp only [List.singleton_append, List.head?_cons, Option.some.injEq] at hx
      subst hx
      decide
    · rw [reLit_append]
      exact hws2
  have hws1 : rePlus isWhiteSpace (fun _ r1 =>
      rePlus (fun c => c != 58) (fun category r2 =>
        reLit [58] (fun r3 =>
          reStar isWhiteSpace (fun _ r4 =>
            rePlus (fun c => !isLineTerminator c) (fun message _ =>
              some (category, message)) r4) r3) r2) r1)
      ((32 :: c.takeWhile isWhiteSpace) ++
        ((a :: c1) ++ ([58] ++ ((32 :: m.takeWhile isWhiteSpace) ++ (b :: m1 ++ []))))) =
      some (a :: c1, b :: m1) := by
    apply rePlus_greedy
    · intro x hx
      rcases List.mem_cons.mp hx with hx | hx
      · subst hx
        decide
      · exact List.mem_takeWhile_imp hx
    · intro x hx
      simp only [List.cons_append, List.head?_cons, Option.some.injEq] at hx
      subst hx
      exact dropWhile_head_not isWhiteSpace c a (by rw [hc2]; rfl)
    · exact hcat
  have hre : progressRegex (js "[AGENT-PROGRESS] " ++ c ++ js ": " ++ m) =
      some (a :: c1, b :: m1) := by
    rw [hline]
    unfold progressRegex
    apply reSearch_head
    rw [reLit_append]
    exact hws1
  unfold parseProgressMessage
  rw [hre]
  simp only
  rw [← hc2, ← hm2, trim_dropWhile, trim_dropWhile]

/-- The instance of C10 at the line of the specification:
'[AGENT-PROGRESS] model-start: contacting provider X'. -/
theorem parseProgressMessage_tagged_witness :
    (∃ x ∈ js "model-start", isWhiteSpace x = false) ∧
    (∀ x ∈ js "model-start", x ≠ 58) ∧
    (∃ x ∈ js "contacting provider X", isWhiteSpace x = false) ∧
    (∀ x ∈ js "contacting provider X", isLineTerminator x = false) ∧
    parseProgressMessage [] (js "[AGENT-PROGRESS] model-start: contacting provider X") =
      some { category := js "model-start", message := js "contacting provider X",
             timestamp := [] } :=
  ⟨by decide, by decide, by decide, by decide,
    parseProgressMessage_tagged [] (js "model-start") (js "contacting provider X")
      (by decide) (by decide) (by decide) (by decide)⟩

/-! ## Lemmas on worker runs -/

theorem run_append (cfg : Config) (a b : List Event) (sv : Server) :
    run cfg sv (a ++ b) =
      match run cfg sv a with
      | some sv1 => run cfg sv1 b
      | none => none := by
  induction a generalizing sv with
  | nil => rfl
  | cons ev a ih =>
    simp only [List.cons_append, run]
    cases step cfg sv ev with
    | none => rfl
    | some sv1 => exact ih sv1

theorem step_chunk (cfg : Config) (sv : Server) (i : Nat) (t : Task) (ch : Chunk)
    (hexit : sv.exitStatus = none) (ht : sv.tasks[i]? = some t) (hclosed : t.closed = false) :
    ∃ sv1, step cfg sv (ch.event i) = some sv1 ∧ sv1.exitStatus = none ∧
      sv1.tasks[i]? = some { t with
        stdout := t.stdout ++ stdoutOf [ch]
        stderr := t.stderr ++ stderrOf [ch]
        progressMessages := t.progressMessages ++ progressOf t.taskId [ch] } := by
  have hlt := getElem?_lt_length ht
  cases ch with
  | out data =>
    refine ⟨onStdoutData sv i t data, ?_, hexit, ?_⟩
    · simp [step, hexit, Chunk.event, Event.target, ht, taskStep, hclosed]
    · simp [onStdoutData, Server.setTask, List.getElem?_set_self hlt, stdoutOf, stderrOf,
        progressOf]
  | err data now sendThrows =>
    refine ⟨onStderrData sv i t data now sendThrows, ?_, hexit, ?_⟩
    · simp [step, hexit, Chunk.event, Event.target, ht, taskStep, hclosed]
    · simp [onStderrData, List.getElem?_set_self hlt, stdoutOf, stderrOf, progressOf]

theorem run_chunks (cfg : Config) (chunks : List Chunk) (sv : Server) (i : Nat) (t : Task)
    (hexit : sv.exitStatus = none) (ht : sv.tasks[i]? = some t) (hclosed : t.closed = false) :
    ∃ sv1, run cfg sv (chunks.map (Chunk.event i)) = some sv1 ∧ sv1.exitStatus = none ∧
      sv1.tasks[i]? = some { t with
        stdout := t.stdout ++ stdoutOf chunks
        stderr := t.stderr ++ stderrOf chunks
        progressMessages := t.progressMessages ++ progressOf t.taskId chunks } := by
  induction chunks generalizing sv t with
  | nil =>
    refine ⟨sv, rfl, hexit, ?_⟩
    simp [stdoutOf, stderrOf, progressOf, ht]
  | cons ch chunks ih =>
    obtain ⟨sv1, h1, h2, h3⟩ := step_chunk cfg sv i t ch hexit ht hclosed
    obtain ⟨sv2, h4, h5, h6⟩ := ih sv1 _ h2 h3 hclosed
    refine ⟨sv2, ?_, h5, ?_⟩
    · simp only [List.map_cons, run, h1]
      exact h4
    · rw [h6]
      cases ch <;> simp [stdoutOf, stderrOf, progressOf]

/-- What the promise of a worker is given when the worker is spawned by a valid
call, writes `chunks`, ends and closes with `code`: one invocation, that of the
`close` handler on everything the worker wrote. -/
theorem settlementsAfter_workerRun (cfg : Config) (sv : Server)
    (taskId task prompt : Str) (options : Options) (chunks : List Chunk) (code : Option Int)
    (hexit : sv.exitStatus = none) (hne : prompt ≠ []) (hlen : prompt.length ≤ 50000) :
    settlementsAfter cfg sv (workerRun sv taskId task prompt options chunks code)
        sv.tasks.length =
      some [closeSettlement cfg (stdoutOf chunks) (stderrOf chunks)
        (progressOf taskId chunks) code] := by
  have hempty : prompt.isEmpty = false := by
    cases prompt with
    | nil => exact absurd rfl hne
    | cons a l => rfl
  have hlen2 : ¬ prompt.length > 50000 := Nat.not_lt.mpr hlen
  obtain ⟨sv1, h1, h2, h3⟩ := run_chunks cfg chunks
    (executeTaskWithStreaming cfg true sv taskId task (.string prompt) options).1
    sv.tasks.length
    { taskId := taskId, task := task
      timeoutMs := match options.timeout with
        | some t => if t ≠ 0 then t else cfg.defaultTimeoutMs
        | none => cfg.defaultTimeoutMs
      child := { args := buildArgs task prompt options, running := true, killed := false,
                 signals := [] }
      stdout := [], stderr := [], progressMessages := []
      timeoutTimer := true, killTimer := false, closed := false, errored := false
      settlements := [] }
    (by simp [executeTaskWithStreaming, Value.truthy, Value.isString, Value.text, hempty,
      hlen2, hexit])
    (by simp [executeTaskWithStreaming, Value.truthy, Value.isString, Value.text, hempty,
      hlen2])
    rfl
  have hlt := getElem?_lt_length h3
  unfold settlementsAfter workerRun
  rw [List.append_assoc, run_append]
  simp only [run, step, hexit, Option.isSome_none, Bool.false_eq_true, if_false]
  rw [run_append, h1]
  simp [run, step, h2, Event.target, h3, taskStep, Server.setTask,
    List.getElem?_set_self hlt, onClose]

/-! ## Claim C7: the rejection message of a failed worker -/

theorem progressOf_nil_of_stderrOf_nil (taskId : Str) (chunks : List Chunk)
    (h : stderrOf chunks = []) : progressOf taskId chunks = [] := by
  induction chunks with
  | nil => rfl
  | cons ch chunks ih =>
    cases ch with
    | out data => exact ih h
    | err data now sendThrows =>
      simp only [stderrOf, List.append_eq_nil] at h
      have h0 : includes [] (js "[AGENT-PROGRESS]") = false := by decide
      have h1 : trim [] = [] := rfl
      simp [progressOf, h.1, ih h.2, splitLines, stderrLine, h0, h1]

set_option maxRecDepth 100000 in
/-- C7 as stated fails at its own witness: a worker that emits the progress
line '[AGENT-PROGRESS] model-fail: provider X', then 'boom', and exits 7 is
rejected with a message whose error text is the whole diagnostic buffer, the raw
progress line included; the text 'Router failed (exit 7): boom' does not occur
in it. -/
theorem failure_message_counterexample :
    settlementsAfter exampleConfig Server.start
        (workerRun Server.start (js "research-1") (js "research") (js "test") noOptions
          boomChunks (some 7)) 0 =
      some [.reject (js ("Agent Execution Progress:\n❌ provider X\n\n---\n\n" ++
        "Router failed (exit 7): [AGENT-PROGRESS] model-fail: provider X\nboom" ++
        "\n\nCheck logs: /opt/save-my-tokens/logs/mcp-server.log"))] ∧
    includes (js ("Agent Execution Progress:\n❌ provider X\n\n---\n\n" ++
        "Router failed (exit 7): [AGENT-PROGRESS] model-fail: provider X\nboom" ++
        "\n\nCheck logs: /opt/save-my-tokens/logs/mcp-server.log"))
      (js "Router failed (exit 7): boom") = false :=
  ⟨rfl, rfl⟩

/-- C7, amended: for every nonzero exit code `n` and every worker whose
diagnostic stream gave at least one progress message, the rejection message
is, in this order: the 'Agent Execution Progress:' section with the formatted
progress messages, the '---' separator, the text 'Router failed (exit n): '
followed by the whole diagnostic buffer (every chunk the worker wrote on its
diagnostic stream, the raw progress lines included), and the log file path. -/
theorem failure_message (cfg : Config) (sv : Server) (taskId task prompt : Str)
    (options : Options) (chunks : List Chunk) (n : Int)
    (hexit : sv.exitStatus = none) (hne : prompt ≠ []) (hlen : prompt.length ≤ 50000)
    (hn : n ≠ 0) (hprog : progressOf taskId chunks ≠ []) :
    settlementsAfter cfg sv (workerRun sv taskId task prompt options chunks (some n))
        sv.tasks.length =
      some [.reject (js "Agent Execution Progress:\n" ++
        join (js "\n") (progressOf taskId chunks) ++ js "\n\n---\n\n" ++
        (js "Router failed (exit " ++ showInt n ++ js "): " ++ stderrOf chunks) ++
        js "\n\nCheck logs: " ++ cfg.logFile)] := by
  have herr : stderrOf chunks ≠ [] := fun h =>
    hprog (progressOf_nil_of_stderrOf_nil taskId chunks h)
  have hpos : (progressOf taskId chunks).length > 0 :=
    List.length_pos_of_ne_nil hprog
  rw [settlementsAfter_workerRun cfg sv taskId task prompt options chunks (some n) hexit hne
    hlen]
  simp [closeSettlement, hn, withProgressLog, hpos, errorBody, herr, showCode]

/-- The instance of C7 (amended) at the worker of the specification's example. -/
theorem failure_message_witness :
    Server.start.exitStatus = none ∧ js "test" ≠ [] ∧ (js "test").length ≤ 50000 ∧
    (7 : Int) ≠ 0 ∧ progressOf (js "research-1") boomChunks ≠ [] ∧
    settlementsAfter exampleConfig Server.start
        (workerRun Server.start (js "research-1") (js "research") (js "test") noOptions
          boomChunks (some 7)) Server.start.tasks.length =
      some [.reject (js "Agent Execution Progress:\n" ++
        join (js "\n") (progressOf (js "research-1") boomChunks) ++ js "\n\n---\n\n" ++
        (js "Router failed (exit " ++ showInt 7 ++ js "): " ++ stderrOf boomChunks) ++
        js "\n\nCheck logs: " ++ exampleConfig.logFile)] :=
  ⟨rfl, by decide, by decide, by decide, by decide,
    failure_message exampleConfig Server.start (js "research-1") (js "research")
      (js "test") noOptions boomChunks 7 rfl (by decide) (by decide) (by decide)
      (by decide)⟩

/-! ## Claims C8 and C9: the result of a successful worker -/

theorem reLit_miss {α : Type} (lit : Str) (k : Str → Option α) (s : Str)
    (h : lit.isPrefixOf s = false) : reLit lit k s = none := by
  simp [reLit, h]

theorem reLit_hit {α : Type} (lit : Str) (k : Str → Option α) (s : Str)
    (h : lit.isPrefixOf s = true) : reLit lit k s = k (s.drop lit.length) := by
  simp [reLit, h]

theorem reSearch_indexOf {α : Type} (lit : Str) (k : Str → Option α) (s : Str) (n : Nat)
    (x : α) (hidx : indexOf lit s = some n)
    (hk : k ((s.drop n).drop lit.length) = some x) :
    reSearch (reLit lit k) s = some x := by
  induction s generalizing n with
  | nil =>
    simp only [indexOf] at hidx
    split at hidx
    · rename_i hp
      cases hidx
      simpa [reSearch, reLit_hit lit k [] hp] using hk
    · cases hidx
  | cons c cs ih =>
    simp only [indexOf] at hidx
    split at hidx
    · rename_i hp
      cases hidx
      apply reSearch_head
      rw [reLit_hit lit k _ hp]
      simpa using hk
    · rename_i hp
      cases hcs : indexOf lit cs with
      | none => simp [hcs] at hidx
      | some n1 =>
        simp [hcs] at hidx
        subst hidx
        simp only [reSearch, reLit_miss lit k _ (Bool.eq_false_iff.mpr hp)]
        exact ih n1 hcs (by simpa using hk)

theorem reStarLazy_indexOf {α : Type} (lit : Str) (f : Str → Str → Option α) (s : Str)
    (n : Nat) (x : α) (hidx : indexOf lit s = some n)
    (hk : f (s.take n) ((s.drop n).drop lit.length) = some x) :
    reStarLazy (fun _ => true) (fun m r => reLit lit (fun r2 => f m r2) r) s = some x := by
  induction s generalizing n f with
  | nil =>
    simp only [indexOf] at hidx
    split at hidx
    · rename_i hp
      cases hidx
      simpa [reStarLazy, reLit_hit lit _ [] hp] using hk
    · cases hidx
  | cons c cs ih =>
    simp only [indexOf] at hidx
    split at hidx
    · rename_i hp
      cases hidx
      simp only [reStarLazy, reLit_hit lit _ _ hp]
      have hk2 : f [] (List.drop lit.length (c :: cs)) = some x := by simpa using hk
      simp [hk2]
    · rename_i hp
      cases hcs : indexOf lit cs with
      | none => simp [hcs] at hidx
      | some n1 =>
        simp [hcs] at hidx
        subst hidx
        simp only [reStarLazy, reLit_miss lit _ _ (Bool.eq_false_iff.mpr hp)]
        exact ih (fun m r => f (c :: m) r) n1 hcs (by simpa using hk)

theorem reSearch_sound {α : Type} (m : Str → Option α) (s : Str) (x : α)
    (h : reSearch m s = some x) : ∃ pre rest, s = pre ++ rest ∧ m rest = some x := by
  induction s with
  | nil => exact ⟨[], [], rfl, by simpa [reSearch] using h⟩
  | cons c cs ih =>
    simp only [reSearch] at h
    split at h
    · rename_i y hy
      cases h
      exact ⟨[], c :: cs, rfl, hy⟩
    · obtain ⟨pre, rest, h1, h2⟩ := ih h
      exact ⟨c :: pre, rest, by simp [h1], h2⟩

theorem reLit_sound {α : Type} (lit : Str) (k : Str → Option α) (s : Str) (x : α)
    (h : reLit lit k s = some x) : ∃ rest, s = lit ++ rest ∧ k rest = some x := by
  unfold reLit at h
  split at h
  · rename_i hp
    obtain ⟨rest, hrest⟩ := List.isPrefixOf_iff_prefix.mp hp
    subst hrest
    exact ⟨rest, rfl, by simpa using h⟩
  · cases h

theorem reStarLazy_sound {α : Type} (p : Nat → Bool) (k : Str → Str → Option α) (s : Str)
    (x : α) (h : reStarLazy p k s = some x) : ∃ m r, s = m ++ r ∧ k m r = some x := by
  induction s generalizing k with
  | nil => exact ⟨[], [], rfl, by simpa [reStarLazy] using h⟩
  | cons c cs ih =>
    simp only [reStarLazy] at h
    split at h
    · rename_i y hy
      cases h
      exact ⟨[], c :: cs, rfl, hy⟩
    · split at h
      · obtain ⟨m, r, h1, h2⟩ := ih _ h
        exact ⟨c :: m, r, by simp [h1], h2⟩
      · cases h

theorem agentResultRegex_sound (s b : Str) (h : agentResultRegex s = some b) :
    ∃ pre body post,
      s = pre ++ js "<agent-result>" ++ body ++ js "</agent-result>" ++ post := by
  unfold agentResultRegex at h
  obtain ⟨pre, r0, h0, h1⟩ := reSearch_sound _ _ _ h
  obtain ⟨r1, h2, h3⟩ := reLit_sound _ _ _ _ h1
  obtain ⟨body, r2, h4, h5⟩ := reStarLazy_sound _ _ _ _ h3
  obtain ⟨post, h6, _⟩ := reLit_sound _ _ _ _ h5
  exact ⟨pre, body, post, by simp [h0, h2, h4, h6]⟩

theorem agentResultRegex_first (pre body post : Str)
    (hopen : indexOf (js "<agent-result>")
      (pre ++ js "<agent-result>" ++ body ++ js "</agent-result>" ++ post) =
        some pre.length)
    (hclose : indexOf (js "</agent-result>") (body ++ js "</agent-result>" ++ post) =
      some body.length) :
    agentResultRegex (pre ++ js "<agent-result>" ++ body ++ js "</agent-result>" ++ post) =
      some (js "<agent-result>" ++ body ++ js "</agent-result>") := by
  unfold agentResultRegex
  apply reSearch_indexOf _ _ _ _ _ hopen
  have e : List.drop (js "<agent-result>").length
      (List.drop pre.length
        (pre ++ js "<agent-result>" ++ body ++ js "</agent-result>" ++ post)) =
      body ++ js "</agent-result>" ++ post := by
    simp only [List.append_assoc, List.drop_left]
  rw [e]
  exact reStarLazy_indexOf (js "</agent-result>")
    (fun body _ => some (js "<agent-result>" ++ body ++ js "</agent-result>")) _ _ _
    hclose (by simp)

theorem outputRegex_first (pre inner post : Str)
    (hopen : indexOf (js "<output>") (pre ++ js "<output>" ++ inner ++ js "</output>" ++ post) =
      some pre.length)
    (hclose : indexOf (js "</output>") (inner ++ js "</output>" ++ post) =
      some inner.length) :
    outputRegex (pre ++ js "<output>" ++ inner ++ js "</output>" ++ post) = some inner := by
  unfold outputRegex
  apply reSearch_indexOf _ _ _ _ _ hopen
  have e : List.drop (js "<output>").length
      (List.drop pre.length (pre ++ js "<output>" ++ inner ++ js "</output>" ++ post)) =
      inner ++ js "</output>" ++ post := by
    simp only [List.append_assoc, List.drop_left]
  rw [e]
  exact reStarLazy_indexOf (js "</output>") (fun inner _ => some inner) _ _ _
    hclose (by simp)

set_option maxRecDepth 100000 in
/-- C8 as stated fails: the standard output
'<agent-result><output>1</output><output>42</output></agent-result>' contains
an `<agent-result>` block with the nested `<output>42</output>`, and a worker
that exits 0 with it and no progress events resolves to '1', the content of the
first `<output>` element, not to '42'. -/
theorem success_result_counterexample :
    js "<agent-result><output>1</output><output>42</output></agent-result>" =
      [] ++ js "<agent-result>" ++ js "<output>1</output>" ++ js "<output>" ++ js "42" ++
        js "</output>" ++ [] ++ js "</agent-result>" ++ [] ∧
    settlementsAfter exampleConfig Server.start
        (workerRun Server.start (js "research-1") (js "research") (js "test") noOptions
          [.out (js "<agent-result><output>1</output><output>42</output></agent-result>")]
          (some 0)) 0 =
      some [.resolve (js "1")] ∧
    js "1" ≠ trim (js "42") :=
  ⟨rfl, rfl, by decide⟩

/-- C8, amended: for every standard output whose first `<agent-result>` is
closed by a `</agent-result>`, and whose block (from that first
`<agent-result>` to the nearest `</agent-result>` after it) contains an
`<output>` closed by an `</output>`, a worker exiting 0 with no progress events
resolves to exactly `trim(t)`, where `t` is the text between the first
`<output>` of the block and the nearest `</output>` after it. -/
theorem success_result_output (cfg : Config) (sv : Server) (taskId task prompt : Str)
    (options : Options) (chunks : List Chunk) (pre mid1 t mid2 post : Str)
    (hexit : sv.exitStatus = none) (hne : prompt ≠ []) (hlen : prompt.length ≤ 50000)
    (hprog : progressOf taskId chunks = [])
    (hout : stdoutOf chunks =
      pre ++ js "<agent-result>" ++ (mid1 ++ js "<output>" ++ t ++ js "</output>" ++ mid2) ++
        js "</agent-result>" ++ post)
    (hopen : indexOf (js "<agent-result>") (stdoutOf chunks) = some pre.length)
    (hclose : indexOf (js "</agent-result>")
        ((mid1 ++ js "<output>" ++ t ++ js "</output>" ++ mid2) ++
          js "</agent-result>" ++ post) =
      some (mid1 ++ js "<output>" ++ t ++ js "</output>" ++ mid2).length)
    (hopen2 : indexOf (js "<output>")
        ((js "<agent-result>" ++ mid1) ++ js "<output>" ++ t ++ js "</output>" ++
          (mid2 ++ js "</agent-result>")) =
      some (js "<agent-result>" ++ mid1).length)
    (hclose2 : indexOf (js "</output>") (t ++ js "</output>" ++ (mid2 ++ js "</agent-result>")) =
      some t.length) :
    settlementsAfter cfg sv (workerRun sv taskId task prompt options chunks (some 0))
        sv.tasks.length =
      some [.resolve (trim t)] := by
  rw [settlementsAfter_workerRun cfg sv taskId task prompt options chunks (some 0) hexit hne
    hlen]
  rw [hout] at hopen
  have hblock := agentResultRegex_first pre _ post hopen hclose
  have hinner := outputRegex_first (js "<agent-result>" ++ mid1) t
    (mid2 ++ js "</agent-result>") hopen2 hclose2
  have eblock : js "<agent-result>" ++
      (mid1 ++ js "<output>" ++ t ++ js "</output>" ++ mid2) ++ js "</agent-result>" =
      (js "<agent-result>" ++ mid1) ++ js "<output>" ++ t ++ js "</output>" ++
        (mid2 ++ js "</agent-result>") := by
    simp only [List.append_assoc]
  rw [← eblock] at hinner
  have hres : extractResult (stdoutOf chunks) = trim t := by
    unfold extractResult
    rw [hout, hblock]
    simp only
    rw [hinner]
  simp [closeSettlement, withProgressLog, hprog, hres]

/-- The instance of C8 (amended) at the standard output of the specification:
'<agent-result><output>42</output></agent-result>' yields '42'. -/
theorem success_result_output_witness :
    settlementsAfter exampleConfig Server.start
        (workerRun Server.start (js "research-1") (js "research") (js "test") noOptions
          [.out (js "<agent-result><output>42</output></agent-result>")] (some 0))
        Server.start.tasks.length =
      some [.resolve (trim (js "42"))] ∧ trim (js "42") = js "42" :=
  ⟨success_result_output exampleConfig Server.start (js "research-1") (js "research")
      (js "test") noOptions [.out (js "<agent-result><output>42</output></agent-result>")]
      [] [] (js "42") [] [] rfl (by decide) (by decide) rfl (by decide) (by decide)
      (by decide) (by decide) (by decide),
    by decide⟩

/-- C9: for every standard output `s` that contains no `<agent-result>` block
and is not blank, a worker exiting 0 with no progress events resolves to
exactly `trim(s)`. -/
theorem success_result_plain (cfg : Config) (sv : Server) (taskId task prompt : Str)
    (options : Options) (chunks : List Chunk)
    (hexit : sv.exitStatus = none) (hne : prompt ≠ []) (hlen : prompt.length ≤ 50000)
    (hprog : progressOf taskId chunks = [])
    (hno : ¬ ∃ pre body post, stdoutOf chunks =
      pre ++ js "<agent-result>" ++ body ++ js "</agent-result>" ++ post)
    (hnb : ∃ x ∈ stdoutOf chunks, isWhiteSpace x = false) :
    settlementsAfter cfg sv (workerRun sv taskId task prompt options chunks (some 0))
        sv.tasks.length =
      some [.resolve (trim (stdoutOf chunks))] := by
  rw [settlementsAfter_workerRun cfg sv taskId task prompt options chunks (some 0) hexit hne
    hlen]
  have hnone : agentResultRegex (stdoutOf chunks) = none := by
    cases h : agentResultRegex (stdoutOf chunks) with
    | none => rfl
    | some b => exact absurd (agentResultRegex_sound _ b h) hno
  have htrim := trim_ne_nil (stdoutOf chunks) hnb
  simp [closeSettlement, withProgressLog, hprog, extractResult, hnone, htrim]

/-- The instance of C9 at the standard output of the specification: 'hello'
yields 'hello'. -/
theorem success_result_plain_witness :
    settlementsAfter exampleConfig Server.start
        (workerRun Server.start (js "research-1") (js "research") (js "test") noOptions
          [.out (js "hello")] (some 0)) Server.start.tasks.length =
      some [.resolve (trim (stdoutOf [.out (js "hello")]))] ∧
    trim (stdoutOf [.out (js "hello")]) = js "hello" :=
  ⟨success_result_plain exampleConfig Server.start (js "research-1") (js "research")
      (js "test") noOptions [.out (js "hello")] rfl (by decide) (by decide) rfl
      (by
        rintro ⟨pre, body, post, h⟩
        have h1 := congrArg List.length h
        have l1 : (js "<agent-result>").length = 14 := by decide
        have l2 : (js "</agent-result>").length = 15 := by decide
        have l3 : (stdoutOf [.out (js "hello")]).length = 5 := by decide
        simp only [List.length_append, l1, l2, l3] at h1
        omega)
      (by decide),
    by decide⟩

/-! ## Claim C11: lines without the tag -/

theorem progressRegex_sound (line : Str) (r : Str × Str) (h : progressRegex line = some r) :
    ∃ pre post, line = pre ++ js "[AGENT-PROGRESS]" ++ post := by
  unfold progressRegex at h
  obtain ⟨pre, rest, h0, h1⟩ := reSearch_sound _ _ _ h
  obtain ⟨post, h2, _⟩ := reLit_sound _ _ _ _ h1
  exact ⟨pre, post, by simp [h0, h2]⟩

/-- C11: for every line of text that does not contain the tag
'[AGENT-PROGRESS]', `parseProgressMessage` returns no event (`null`); the
function is total, it raises on no input. -/
theorem parseProgressMessage_untagged (now line : Str)
    (h : ¬ ∃ pre post, line = pre ++ js "[AGENT-PROGRESS]" ++ post) :
    parseProgressMessage now line = none := by
  unfold parseProgressMessage
  cases hre : progressRegex line with
  | none => rfl
  | some r => exact absurd (progressRegex_sound line r hre) h

/-- The instance of C11 at the line 'boom'. -/
theorem parseProgressMessage_untagged_witness :
    (¬ ∃ pre post, js "boom" = pre ++ js "[AGENT-PROGRESS]" ++ post) ∧
    parseProgressMessage [] (js "boom") = none :=
  have h : ¬ ∃ pre post, js "boom" = pre ++ js "[AGENT-PROGRESS]" ++ post := by
    rintro ⟨pre, post, h⟩
    have h1 := congrArg List.length h
    have l1 : (js "[AGENT-PROGRESS]").length = 16 := by decide
    have l2 : (js "boom").length = 4 := by decide
    simp only [List.length_append, l1, l2] at h1
    omega
  ⟨h, parseProgressMessage_untagged [] (js "boom") h⟩

/-! ## Claim C12: the icon of a category -/

theorem formatProgress_generic (progress : ProgressEvent)
    (hown : icons progress.category = none)
    (hinherited : inheritedMember progress.category = none) :
    formatProgress progress = js "🤖" ++ js " " ++ progress.message := by
  simp [formatProgress, hown, hinherited]

/-- C12, evaluated on the category 'constructor', which is none of the thirteen
recognised categories: the line '[AGENT-PROGRESS] constructor: starting' parses
to that category, `icons['constructor']` finds `Object.prototype.constructor`
on the prototype chain, a truthy value, so `formatProgress` returns
'function Object() { [native code] } starting' and not '🤖 starting'. -/
theorem formatProgress_inherited_category :
    parseProgressMessage [] (js "[AGENT-PROGRESS] constructor: starting") =
      some { category := js "constructor", message := js "starting", timestamp := [] } ∧
    icons (js "constructor") = none ∧
    formatProgress { category := js "constructor", message := js "starting", timestamp := [] } =
      js "function Object() \x7b [native code] \x7d starting" ∧
    formatProgress { category := js "constructor", message := js "starting", timestamp := [] } ≠
      js "🤖" ++ js " " ++ js "starting" := by
  refine ⟨by rfl, by decide, by rfl, by decide⟩

/-! ## Claims C13, C14 and C15: the health report -/

/-- C13 as stated fails: with the worker present and executable, a populated
credential and one task, but a log file that cannot be appended to, `checkHealth`
returns 'warning', where the claim's order of cases ends in 'healthy'. -/
theorem checkHealth_log_unwritable_counterexample :
    (checkHealth exampleConfig logUnwritableProbes).1.router =
      { available := true, path := exampleConfig.routerPath, executable := true } ∧
    (checkHealth exampleConfig logUnwritableProbes).1.environment =
      { configured := true, hasApiKeys := true } ∧
    (checkHealth exampleConfig logUnwritableProbes).1.tasks.count = 1 ∧
    (checkHealth exampleConfig logUnwritableProbes).1.logs.writable = false ∧
    (checkHealth exampleConfig logUnwritableProbes).1.status = .warning ∧
    specifiedStatus true true 1 = .healthy :=
  ⟨rfl, rfl, rfl, rfl, rfl, rfl⟩

/-- C13, amended: for every combination of probe outcomes, `checkHealth`
returns status 'degraded' if the worker is missing or not executable; otherwise
'warning' if the environment file is missing or has no populated credential;
otherwise 'warning' if zero tasks were discovered; otherwise 'warning' if the log
file is not writable; and otherwise 'healthy'.  The checks of the report are the
probe outcomes. -/
theorem checkHealth_status (cfg : Config) (p : Probes) :
    (checkHealth cfg p).1.status =
      (if !((checkHealth cfg p).1.router.available &&
            (checkHealth cfg p).1.router.executable) then .degraded
       else if !((checkHealth cfg p).1.environment.configured &&
            (checkHealth cfg p).1.environment.hasApiKeys) then .warning
       else if (checkHealth cfg p).1.tasks.count = 0 then .warning
       else if !(checkHealth cfg p).1.logs.writable then .warning
       else .healthy) ∧
    (checkHealth cfg p).1.router.available = p.routerExists ∧
    ((checkHealth cfg p).1.router.executable = true ↔
      p.routerExists = true ∧ ∃ mode, p.routerMode = .ok mode ∧ Nat.land mode 73 ≠ 0) ∧
    (checkHealth cfg p).1.environment.configured = p.envExists ∧
    ((checkHealth cfg p).1.environment.hasApiKeys = true ↔
      p.envExists = true ∧ ∃ envContent, p.envContent = .ok envContent ∧
        apiKeyRegex envContent = true) ∧
    (checkHealth cfg p).1.tasks.count =
      (discoverTasks (cfg.freeAgentsPath ++ js "/tasks") p.tasksDirExists
        p.taskFiles).1.length ∧
    (checkHealth cfg p).1.logs.writable = p.logWritable := by
  obtain ⟨routerExists, routerMode, envExists, envContent, tasksDirExists, taskFiles,
    logsDirExists, logWritable⟩ := p
  refine ⟨?_, rfl, ?_, rfl, ?_, rfl, rfl⟩
  · simp only [checkHealth]
    cases routerExists <;> cases envExists <;> cases logWritable <;>
      cases routerMode <;> cases envContent <;> simp <;> split_ifs <;> simp_all
  · simp only [checkHealth]
    cases routerExists <;> cases routerMode <;> simp
  · simp only [checkHealth]
    cases envExists <;> cases envContent <;> simp

/-- C14, evaluated on an installation whose log file cannot be appended to
while everything else is in place: the report has status 'warning' and no
message, where the three cases of the overall status set a message together
with every status other than 'healthy'. -/
theorem checkHealth_warning_without_message :
    (checkHealth exampleConfig logUnwritableProbes).1.status = .warning ∧
    (checkHealth exampleConfig logUnwritableProbes).1.message = none ∧
    (checkHealth exampleConfig healthyProbes).1.status = .healthy ∧
    (checkHealth exampleConfig healthyProbes).1.message = none :=
  ⟨rfl, rfl, rfl, rfl⟩

/-- C15, evaluated on an environment file whose only credential lines hold the
placeholder values of the template: `checkHealth` reports `hasApiKeys` true and
status 'healthy', while the status command of the CLI, which excludes values
that begin with 'your_', counts no configured key in the same file. -/
theorem checkHealth_accepts_placeholder :
    placeholderProbes.envContent =
      .ok (js ("CEREBRAS_API_KEY=your_cerebras_key_here\n" ++
        "MISTRAL_API_KEY=your_mistral_key_here\n")) ∧
    (checkHealth exampleConfig placeholderProbes).1.environment =
      { configured := true, hasApiKeys := true } ∧
    (checkHealth exampleConfig placeholderProbes).1.status = .healthy ∧
    cliConfiguredCount (js ("CEREBRAS_API_KEY=your_cerebras_key_here\n" ++
        "MISTRAL_API_KEY=your_mistral_key_here\n")) = 0 :=
  ⟨rfl, rfl, rfl, rfl⟩

/-! ## Claim C16: the default description of a task -/

theorem loadTask_named (file name : Str) (description multi_model : Value)
    (hname : name ≠ []) (hdesc : description.truthy = false) :
    ∃ d, loadTask ⟨file, .object (.string name) description multi_model⟩ = .ok d ∧
      d.name = .string name ∧
      d.description = .string (js "Execute " ++ name ++ js " task") := by
  have hempty : name.isEmpty = false := by
    cases name with
    | nil => exact absurd rfl hname
    | cons a l => rfl
  exact ⟨_, rfl, by simp [Value.truthy, hempty], by simp [hdesc, Value.render]⟩

/-- C16, evaluated on the file 'research.json' whose definition parses and has
neither a name nor a description: the descriptor's name is the base name
'research', and its description is 'Execute undefined task', built from the
definition's absent name, not 'Execute research task'. -/
theorem discoverTasks_default_description :
    (discoverTasks (js "/opt/save-my-tokens/tasks") true
        (.ok [⟨js "research.json", .object .undefined .undefined .undefined⟩])).1 =
      [{ name := .string (js "research")
         description := .string (js "Execute undefined task")
         multiModel := true
         config := .object .undefined .undefined .undefined }] ∧
    js "Execute undefined task" ≠ js "Execute " ++ js "research" ++ js " task" :=
  ⟨rfl, by decide⟩

/-! ## Claim C17: the progress section of a successful result -/

theorem progressOf_append (taskId : Str) (c1 c2 : List Chunk) :
    progressOf taskId (c1 ++ c2) = progressOf taskId c1 ++ progressOf taskId c2 := by
  induction c1 with
  | nil => rfl
  | cons ch c1 ih =>
    cases ch with
    | out data => simpa [progressOf] using ih
    | err data now sendThrows => simp [progressOf, ih]

/-- C17: for a worker exiting 0 after at least one progress message was
collected, the resolved text is exactly 'Agent Execution Progress:\n', the
collected messages joined by '\n' in their arrival order, '\n\n---\n\n' and the
extracted result body; the messages of an earlier chunk come before those of a
later chunk. -/
theorem success_with_progress (cfg : Config) (sv : Server) (taskId task prompt : Str)
    (options : Options) (chunks : List Chunk)
    (hexit : sv.exitStatus = none) (hne : prompt ≠ []) (hlen : prompt.length ≤ 50000)
    (hprog : progressOf taskId chunks ≠ []) :
    settlementsAfter cfg sv (workerRun sv taskId task prompt options chunks (some 0))
        sv.tasks.length =
      some [.resolve (js "Agent Execution Progress:\n" ++
        join (js "\n") (progressOf taskId chunks) ++ js "\n\n---\n\n" ++
        extractResult (stdoutOf chunks))] ∧
    ∀ earlier later : List Chunk, chunks = earlier ++ later →
      progressOf taskId chunks = progressOf taskId earlier ++ progressOf taskId later := by
  have hpos : (progressOf taskId chunks).length > 0 := List.length_pos_of_ne_nil hprog
  refine ⟨?_, fun earlier later h => h ▸ progressOf_append taskId earlier later⟩
  rw [settlementsAfter_workerRun cfg sv taskId task prompt options chunks (some 0) hexit hne
    hlen]
  simp [closeSettlement, withProgressLog, hpos]

set_option maxRecDepth 100000 in
/-- The instance of C17 at a worker that reports two steps and prints 'hello'. -/
theorem success_with_progress_witness :
    progressOf (js "research-1") helloChunks = [js "🚀 contacting provider X", js "✅ done"] ∧
    settlementsAfter exampleConfig Server.start
        (workerRun Server.start (js "research-1") (js "research") (js "test") noOptions
          helloChunks (some 0)) Server.start.tasks.length =
      some [.resolve (js "Agent Execution Progress:\n" ++
        join (js "\n") (progressOf (js "research-1") helloChunks) ++ js "\n\n---\n\n" ++
        extractResult (stdoutOf helloChunks))] ∧
    js "Agent Execution Progress:\n" ++
        join (js "\n") (progressOf (js "research-1") helloChunks) ++ js "\n\n---\n\n" ++
        extractResult (stdoutOf helloChunks) =
      js "Agent Execution Progress:\n🚀 contacting provider X\n✅ done\n\n---\n\nhello" :=
  ⟨rfl,
    (success_with_progress exampleConfig Server.start (js "research-1") (js "research")
      (js "test") noOptions helloChunks rfl (by decide) (by decide) (by decide)).1,
    rfl⟩

/-! ## Claim C18: diagnostic lines that are not progress lines -/

theorem stderrLine_no_match (taskId now : Str) (sendThrows : Bool) (line : Str)
    (h : progressRegex line = none) :
    (stderrLine taskId now sendThrows line).progress = [] ∧
    (stderrLine taskId now sendThrows line).notifications = [] ∧
    (stderrLine taskId now sendThrows line).console = [] := by
  have hp : parseProgressMessage now line = none := by
    simp [parseProgressMessage, h]
  unfold stderrLine
  split
  · simp [hp]
  · split <;> simp

theorem stderrLine_untagged (taskId now : Str) (sendThrows : Bool) (line : Str)
    (htag : includes line (js "[AGENT-PROGRESS]") = false)
    (hnb : ∃ x ∈ line, isWhiteSpace x = false) :
    stderrLine taskId now sendThrows line =
      { log := [routerStderrEntry taskId line], progress := [], notifications := []
        console := [] } := by
  have htrim := trim_ne_nil line hnb
  simp [stderrLine, htag, htrim, routerStderrEntry]

set_option maxRecDepth 100000 in
/-- C18 as stated fails: the line '[AGENT-PROGRESS] no separator' is not blank
and does not match the progress-line grammar (it has no colon), and the
`stderr` handler writes no log entry for it: the log after the chunk is the log
before it. -/
theorem unparsed_tagged_line_not_logged :
    progressRegex (js "[AGENT-PROGRESS] no separator") = none ∧
    trim (js "[AGENT-PROGRESS] no separator") ≠ [] ∧
    splitLines (js "[AGENT-PROGRESS] no separator") = [js "[AGENT-PROGRESS] no separator"] ∧
    (run exampleConfig spawnedServer
        [.stderrData 0 (js "[AGENT-PROGRESS] no separator") [] false]).map (·.log) =
      some spawnedServer.log :=
  ⟨by rfl, by decide, by rfl, by rfl⟩

/-- C18, amended: for every diagnostic-stream chunk, every line of the chunk
that does not match the progress-line grammar produces no progress event, no
collected progress message and no notification; and every such line that is
not blank and does not contain the tag '[AGENT-PROGRESS]' is logged as raw
diagnostic text: its only effect is one 'Router stderr' debug entry carrying
the trimmed line, which is in the log once the chunk is handled. -/
theorem unmatched_line_logged (cfg : Config) (sv : Server) (i : Nat) (t : Task)
    (data now line : Str) (sendThrows : Bool)
    (hexit : sv.exitStatus = none) (ht : sv.tasks[i]? = some t) (hclosed : t.closed = false)
    (hline : line ∈ splitLines data) (hno : progressRegex line = none) :
    parseProgressMessage now line = none ∧
    (stderrLine t.taskId now sendThrows line).progress = [] ∧
    (stderrLine t.taskId now sendThrows line).notifications = [] ∧
    (stderrLine t.taskId now sendThrows line).console = [] ∧
    (includes line (js "[AGENT-PROGRESS]") = false →
      (∃ x ∈ line, isWhiteSpace x = false) →
      stderrLine t.taskId now sendThrows line =
        { log := [routerStderrEntry t.taskId line], progress := [], notifications := []
          console := [] } ∧
      ∃ sv1, step cfg sv (.stderrData i data now sendThrows) = some sv1 ∧
        routerStderrEntry t.taskId line ∈ sv1.log) := by
  obtain ⟨h1, h2, h3⟩ := stderrLine_no_match t.taskId now sendThrows line hno
  refine ⟨by simp [parseProgressMessage, hno], h1, h2, h3, fun htag hnb => ?_⟩
  have heq := stderrLine_untagged t.taskId now sendThrows line htag hnb
  refine ⟨heq, onStderrData sv i t data now sendThrows, ?_, ?_⟩
  · simp [step, hexit, Event.target, ht, taskStep, hclosed]
  · simp only [onStderrData, List.mem_append, List.mem_flatMap, List.mem_map]
    exact Or.inr ⟨_, ⟨line, hline, rfl⟩, by rw [heq]; exact List.mem_singleton.mpr rfl⟩

/-- The instance of C18 (amended) at the line 'boom' of the chunk
'warming up\nboom'. -/
theorem unmatched_line_logged_witness :
    spawnedServer.exitStatus = none ∧ spawnedServer.tasks[0]? = some spawnedTask ∧
    spawnedTask.closed = false ∧ js "boom" ∈ splitLines (js "warming up\nboom") ∧
    progressRegex (js "boom") = none ∧
    includes (js "boom") (js "[AGENT-PROGRESS]") = false ∧
    (∃ x ∈ js "boom", isWhiteSpace x = false) ∧
    stderrLine spawnedTask.taskId [] false (js "boom") =
      { log := [routerStderrEntry spawnedTask.taskId (js "boom")], progress := []
        notifications := [], console := [] } ∧
    ∃ sv1, step exampleConfig spawnedServer
        (.stderrData 0 (js "warming up\nboom") [] false) = some sv1 ∧
      routerStderrEntry spawnedTask.taskId (js "boom") ∈ sv1.log :=
  ⟨rfl, rfl, rfl, by decide, by rfl, by decide, by decide,
    (unmatched_line_logged exampleConfig spawnedServer 0 spawnedTask
      (js "warming up\nboom") [] (js "boom") false rfl rfl rfl (by decide)
      (by rfl)).2.2.2.2 (by decide) (by decide)⟩

/-! ## Claim C19: chunks that end on a line boundary -/

theorem splitLines_ne_nil (s : Str) : splitLines s ≠ [] := by
  cases s with
  | nil => simp [splitLines]
  | cons c cs =>
    simp only [splitLines]
    split
    · simp
    · split <;> simp

theorem splitLines_append_newline (a b : Str) :
    splitLines (a ++ 10 :: b) = splitLines a ++ splitLines b := by
  induction a with
  | nil => simp [splitLines]
  | cons c a ih =>
    simp only [List.cons_append, splitLines]
    split
    · simp [ih]
    · have ih2 : splitLines (a.append (10 :: b)) = splitLines a ++ splitLines b := ih
      rw [ih2]
      obtain ⟨l, ls, hl⟩ := List.exists_cons_of_ne_nil (splitLines_ne_nil a)
      simp [hl]

theorem stderrLine_progress_eq (taskId1 taskId2 now1 now2 : Str) (s1 s2 : Bool) (line : Str) :
    (stderrLine taskId1 now1 s1 line).progress = (stderrLine taskId2 now2 s2 line).progress := by
  unfold stderrLine parseProgressMessage
  split
  · cases progressRegex line with
    | none => rfl
    | some r => simp [formatProgress]
  · split <;> rfl

theorem stderrLine_nil_progress (taskId now : Str) (s : Bool) :
    (stderrLine taskId now s []).progress = [] := by
  have h0 : includes [] (js "[AGENT-PROGRESS]") = false := by decide
  have h1 : trim [] = [] := rfl
  simp [stderrLine, h0, h1]

theorem chunk_progress_eq (taskId now1 now2 : Str) (s1 s2 : Bool) (lines : List Str) :
    (lines.map (stderrLine taskId now1 s1)).flatMap (·.progress) =
      (lines.map (stderrLine taskId now2 s2)).flatMap (·.progress) := by
  induction lines with
  | nil => rfl
  | cons l ls ih =>
    simp only [List.map_cons, List.flatMap_cons, ih,
      stderrLine_progress_eq taskId taskId now1 now2 s1 s2 l]

theorem progressOf_line_boundary (taskId a b now1 now2 now3 : Str) (s1 s2 s3 : Bool) :
    progressOf taskId [.err (a ++ 10 :: b) now1 s1] =
      progressOf taskId [.err (a ++ [10]) now2 s2, .err b now3 s3] := by
  simp only [progressOf, splitLines_append_newline, List.map_append, List.flatMap_append,
    List.append_nil]
  have e : splitLines [] = [[]] := rfl
  simp only [e, List.map_cons, List.map_nil, List.flatMap_cons, List.flatMap_nil,
    stderrLine_nil_progress, List.append_nil]
  rw [chunk_progress_eq taskId now1 now2 s1 s2 (splitLines a),
    chunk_progress_eq taskId now1 now3 s1 s3 (splitLines b)]

/-- C19: progress collection is compositional over chunks that end on a line
boundary: for all diagnostic chunks `a` and `b` where `a` ends with a newline,
the formatted progress messages collected from the single chunk `a + b` are
those collected from `a` followed by those collected from `b`, and the closure's
`progressMessages` after the one `data` event equal those after the two. -/
theorem progress_line_boundary (cfg : Config) (sv : Server) (i : Nat) (t : Task)
    (a b now1 now2 now3 : Str) (s1 s2 s3 : Bool)
    (hexit : sv.exitStatus = none) (ht : sv.tasks[i]? = some t) (hclosed : t.closed = false)
    (ha : a.getLast? = some 10) :
    progressOf t.taskId [.err (a ++ b) now1 s1] =
      progressOf t.taskId [.err a now2 s2] ++ progressOf t.taskId [.err b now3 s3] ∧
    ∃ sv1 sv2 t1 t2,
      run cfg sv [.stderrData i (a ++ b) now1 s1] = some sv1 ∧
      run cfg sv [.stderrData i a now2 s2, .stderrData i b now3 s3] = some sv2 ∧
      sv1.tasks[i]? = some t1 ∧ sv2.tasks[i]? = some t2 ∧
      t1.progressMessages = t2.progressMessages ∧
      t1.progressMessages = t.progressMessages ++
        (progressOf t.taskId [.err a now2 s2] ++ progressOf t.taskId [.err b now3 s3]) := by
  obtain ⟨a1, ha1⟩ := List.getLast?_eq_some_iff.mp ha
  subst ha1
  have hp : progressOf t.taskId [.err (a1 ++ [10] ++ b) now1 s1] =
      progressOf t.taskId [.err (a1 ++ [10]) now2 s2, .err b now3 s3] := by
    have e : a1 ++ [10] ++ b = a1 ++ 10 :: b := by simp
    rw [e]
    exact progressOf_line_boundary t.taskId a1 b now1 now2 now3 s1 s2 s3
  have hsplit : progressOf t.taskId [.err (a1 ++ [10]) now2 s2, .err b now3 s3] =
      progressOf t.taskId [.err (a1 ++ [10]) now2 s2] ++
        progressOf t.taskId [.err b now3 s3] :=
    progressOf_append t.taskId [.err (a1 ++ [10]) now2 s2] [.err b now3 s3]
  obtain ⟨sv1, h1, _, h1t⟩ := run_chunks cfg [.err (a1 ++ [10] ++ b) now1 s1] sv i t hexit ht
    hclosed
  obtain ⟨sv2, h2, _, h2t⟩ := run_chunks cfg [.err (a1 ++ [10]) now2 s2, .err b now3 s3] sv i t
    hexit ht hclosed
  refine ⟨hp.trans hsplit, sv1, sv2, _, _, h1, h2, h1t, h2t, ?_, ?_⟩
  · simp only
    rw [hp]
  · simp only
    rw [hp, hsplit]

/-- The instance of C19 at a chunk of two progress lines, broken after the
first. -/
theorem progress_line_boundary_witness :
    (js "[AGENT-PROGRESS] model-start: contacting provider X\n").getLast? = some 10 ∧
    progressOf spawnedTask.taskId
        [.err (js "[AGENT-PROGRESS] model-start: contacting provider X\n" ++
          js "[AGENT-PROGRESS] model-complete: done\n") [] false] =
      progressOf spawnedTask.taskId
          [.err (js "[AGENT-PROGRESS] model-start: contacting provider X\n") [] false] ++
        progressOf spawnedTask.taskId
          [.err (js "[AGENT-PROGRESS] model-complete: done\n") [] false] :=
  ⟨by decide,
    (progress_line_boundary exampleConfig spawnedServer 0 spawnedTask
      (js "[AGENT-PROGRESS] model-start: contacting provider X\n")
      (js "[AGENT-PROGRESS] model-complete: done\n") [] [] [] false false false
      rfl rfl rfl (by decide)).1⟩

end SaveMyTokens
